import Mathlib

/-
  Verification development for the RustGlacier bytecode core
  (compiler-to-bytecode plus stack-based bytecode virtual machine,
  files src/vm/vm_bc.rs, src/vm/value.rs, src/vm/bytecode.rs,
  src/vm/memory.rs, and the legacy operator module
  src/glacier_vm/operators.rs).

  Shallow embedding conventions:
  - Machine integers (Rust i64) are Lean Int together with explicit
    wrapping (mod 2^64, release-build semantics for +, -, *) and the
    explicit panics Rust keeps in every build for division/remainder
    overflow.
  - Raw pointers (*mut Value) become an explicit Handle type: either an
    index into the growing allocation arena (alloc_new_value) or an index
    into 'constants' (the REPLACE padding takes the address
    '&mut self.constants[NULL_CONSTANT]').
  - Rust f64 payloads are carried as uninterpreted Nat bit patterns; every
    f64 operation the VM uses is a field of a FloatOps parameter, so all
    theorems hold for every interpretation of float arithmetic.  No claim
    in this development depends on a float result.
  - A Rust panic, an out-of-bounds raw index, or other UB is rendered as
    the distinguished outcome 'crash'.
  - Fallible steps return Option / explicit result types; unbounded
    recursion (through possibly cyclic arrays) takes explicit fuel; in the
    interpreter the fuel handed to those recursions is (heap size + 1),
    which suffices exactly for acyclic structures, so fuel exhaustion
    coincides with the infinite recursion Rust would perform on a cycle.
-/

namespace Glacier

/-- Byte span of an AST node ([start, end) into the source). Mirrors
struct AstSpan of the parser; the field end is renamed stop (Lean keyword). -/
structure AstSpan where
  start : Nat
  stop : Nat
deriving DecidableEq

/-- Uninterpreted IEEE-754 double operations. The VM only ever consumes
f64 values through these entry points; the development is parametric in
them, so every theorem holds for arbitrary float semantics. Payloads are
bit patterns coded as Nat. -/
structure FloatOps where
  parseF : String → Option Nat
  fadd : Nat → Nat → Nat
  fsub : Nat → Nat → Nat
  fmul : Nat → Nat → Nat
  fdiv : Nat → Nat → Nat
  fmodF : Nat → Nat → Nat
  fbeq : Nat → Nat → Bool
  fblt : Nat → Nat → Bool
  fble : Nat → Nat → Bool
  fbgt : Nat → Nat → Bool
  fbge : Nat → Nat → Bool
  ofInt : Int → Nat
  isZeroF : Nat → Bool
  fmtDebug : Nat → String
  fmtPrint : Nat → String

/-- Trivial instantiation of FloatOps, used to evaluate witnesses and
counterexamples on concrete inputs (none of which involve floats). -/
def floatOps0 : FloatOps where
  parseF := fun _ => some 0
  fadd := fun _ _ => 0
  fsub := fun _ _ => 0
  fmul := fun _ _ => 0
  fdiv := fun _ _ => 0
  fmodF := fun _ _ => 0
  fbeq := fun _ _ => false
  fblt := fun _ _ => false
  fble := fun _ _ => false
  fbgt := fun _ _ => false
  fbge := fun _ _ => false
  ofInt := fun _ => 0
  isZeroF := fun _ => false
  fmtDebug := fun _ => "0.0"
  fmtPrint := fun _ => "0.0"

/-- A stable reference to one value cell: either a cell of the allocation
arena (alloc_new_value) or a cell of the constant pool (only ever created
by the REPLACE padding, which takes the address of
constants[NULL_CONSTANT]). -/
inductive Handle where
  | heapH : Nat → Handle
  | constH : Nat → Handle
deriving DecidableEq

/-- Tagged value union, mirroring enum Value of src/vm/value.rs.
Array elements are handles, not inline values. -/
inductive Value where
  | VFloat : Nat → Value
  | VInt : Int → Value
  | VString : String → Value
  | VBool : Bool → Value
  | VNull : Value
  | VArray : List Handle → Value
deriving DecidableEq

namespace I64

/-- Smallest i64. -/
def minI : Int := -(2 ^ 63)

/-- Largest i64. -/
def maxI : Int := 2 ^ 63 - 1

/-- Wraps an integer into the i64 range, the release-build semantics of
Rust +, -, * on i64. -/
def wrap (n : Int) : Int := (n + 2 ^ 63) % 2 ^ 64 - 2 ^ 63

/-- Saturating negation (i64::saturating_neg): the minimum maps to the
maximum, everything else negates exactly. -/
def satNeg (n : Int) : Int := if n = minI then maxI else -n

/-- Membership in the i64 range. -/
def inRange (n : Int) : Prop := minI ≤ n ∧ n ≤ maxI

instance (n : Int) : Decidable (inRange n) := by
  unfold inRange; infer_instance

end I64

/-- Boolean truth projection, mirroring Value::is_truthy. A float is
truthy when it is not equal to 0.0. -/
def isTruthy (F : FloatOps) : Value → Bool
  | .VFloat f => !(F.isZeroF f)
  | .VInt i => decide (i ≠ 0)
  | .VString s => !(s.isEmpty)
  | .VBool b => b
  | .VNull => false
  | .VArray a => !(a.isEmpty)

/-- Mirrors Value::type_name. -/
def typeName : Value → String
  | .VFloat _ => "float"
  | .VInt _ => "int"
  | .VString _ => "string"
  | .VBool _ => "bool"
  | .VNull => "null"
  | .VArray _ => "array"

/-- Dereference a handle against the constant pool κ and the arena σ. A
Rust program dereferencing an invalid pointer is undefined; here a stale
handle simply yields none and the interpreter turns that into crash. -/
def derefIn (κ σ : List Value) : Handle → Option Value
  | .heapH i => σ.get? i
  | .constH i => κ.get? i

mutual

/-- Structural equality, mirroring Value::is_equal. Recursion through
array element handles takes fuel; Rust recursion on a cyclic array would
not terminate, which corresponds to fuel running out. -/
def isEqualV (F : FloatOps) (κ σ : List Value) : Nat → Value → Value → Option Bool
  | 0, _, _ => none
  | _ + 1, .VFloat f1, .VFloat f2 => some (F.fbeq f1 f2)
  | _ + 1, .VInt i1, .VInt i2 => some (decide (i1 = i2))
  | _ + 1, .VString s1, .VString s2 => some (decide (s1 = s2))
  | _ + 1, .VBool b1, .VBool b2 => some (decide (b1 = b2))
  | _ + 1, .VNull, .VNull => some true
  | fuel + 1, .VArray a1, .VArray a2 =>
      if a1.length ≠ a2.length then some false
      else isEqualElems F κ σ fuel a1 a2
  | _ + 1, _, _ => some false
termination_by fuel _ _ => (fuel, 0)

/-- Element-wise equality of two handle lists (the zip loop inside
Value::is_equal for arrays). -/
def isEqualElems (F : FloatOps) (κ σ : List Value) : Nat → List Handle → List Handle → Option Bool
  | _, [], _ => some true
  | _, _ :: _, [] => some true
  | fuel, h1 :: t1, h2 :: t2 =>
      match derefIn κ σ h1, derefIn κ σ h2 with
      | some v1, some v2 =>
          match isEqualV F κ σ fuel v1 v2 with
          | none => none
          | some false => some false
          | some true => isEqualElems F κ σ fuel t1 t2
      | _, _ => none
termination_by fuel l1 _ => (fuel, l1.length + 1)

end

/-- Rust-style debug escaping of a character inside a quoted string.
The exotic control and unicode escapes of Rust are not needed by any
claim; backslash, quote, newline, tab and carriage return are handled. -/
def escapeChar (c : Char) : String :=
  if c = '\\' then "\\\\"
  else if c = '"' then "\\\""
  else if c = '\n' then "\\n"
  else if c = '\t' then "\\t"
  else if c = '\r' then "\\r"
  else String.mk [c]

/-- Debug formatting of a string literal, mirroring the {s:?} formatter. -/
def quoteDebug (s : String) : String :=
  "\"" ++ String.join (s.data.map escapeChar) ++ "\""

mutual

/-- Debug formatting, mirroring Value::debug_format; recursion through
array elements takes fuel (Rust would recurse forever on a cycle). -/
def debugFormat (F : FloatOps) (κ σ : List Value) : Nat → Value → Option String
  | 0, _ => none
  | _ + 1, .VFloat f => some (F.fmtDebug f)
  | _ + 1, .VInt i => some (toString i)
  | _ + 1, .VString s => some (quoteDebug s)
  | _ + 1, .VBool b => some (toString b)
  | _ + 1, .VNull => some "null"
  | fuel + 1, .VArray a =>
      match formatElems F κ σ fuel a with
      | none => none
      | some parts => some ("[" ++ String.intercalate ", " parts ++ "]")
termination_by fuel _ => (fuel, 0)

/-- Debug-formats each element of a handle list. -/
def formatElems (F : FloatOps) (κ σ : List Value) : Nat → List Handle → Option (List String)
  | _, [] => some []
  | fuel, h :: t =>
      match derefIn κ σ h with
      | none => none
      | some v =>
          match debugFormat F κ σ fuel v with
          | none => none
          | some s =>
              match formatElems F κ σ fuel t with
              | none => none
              | some rest => some (s :: rest)
termination_by fuel l => (fuel, l.length + 1)

end

/-- Display formatting, mirroring Value::print_format (strings unquoted;
arrays still debug-format their elements). -/
def printFormat (F : FloatOps) (κ σ : List Value) (fuel : Nat) (v : Value) : Option String :=
  match fuel, v with
  | 0, _ => none
  | _ + 1, .VFloat f => some (F.fmtPrint f)
  | _ + 1, .VInt i => some (toString i)
  | _ + 1, .VString s => some s
  | _ + 1, .VBool b => some (toString b)
  | _ + 1, .VNull => some "null"
  | fuel + 1, .VArray a =>
      match formatElems F κ σ fuel a with
      | none => none
      | some parts => some ("[" ++ String.intercalate ", " parts ++ "]")

/-- Result of a fallible binary operation or of get_element, mirroring
enum BinOpResult; ok carries the updated arena and the handle returned
(the source allocates the result inside the operation). crash renders a
Rust panic or UB. -/
inductive BinRes where
  | ok : List Value → Handle → BinRes
  | err : String → BinRes
  | noMatch : BinRes
  | crash : BinRes
deriving DecidableEq

/-- Allocates a fresh arena cell (alloc_new_value): the arena grows by one
cell and the handle of the new cell is returned. -/
def allocV (σ : List Value) (v : Value) : List Value × Handle :=
  (σ ++ [v], .heapH σ.length)

/-- Mirrors Value::shallow_copy: arrays return the same handle (aliasing),
scalars are cloned into a fresh cell. none renders the UB of
dereferencing an invalid pointer. -/
def shallowCopyIn (κ σ : List Value) (h : Handle) : Option (List Value × Handle) :=
  match derefIn κ σ h with
  | none => none
  | some (.VArray _) => some (σ, h)
  | some v => some (allocV σ v)


/-- Shallow-copies every handle of a list in order, threading the arena
(the inner loop of the shallow repetition in Value::binary_mul). -/
def shallowCopyList (κ : List Value) : List Value → List Handle → Option (List Value × List Handle)
  | σ, [] => some (σ, [])
  | σ, h :: t =>
      match shallowCopyIn κ σ h with
      | none => none
      | some (σ1, h1) =>
          match shallowCopyList κ σ1 t with
          | none => none
          | some (σ2, t2) => some (σ2, h1 :: t2)

/-- Repeats the shallow copy of an element list n times (the outer loop of
the shallow repetition in Value::binary_mul). -/
def shallowRepeat (κ : List Value) (a : List Handle) : List Value → Nat → Option (List Value × List Handle)
  | σ, 0 => some (σ, [])
  | σ, n + 1 =>
      match shallowCopyList κ σ a with
      | none => none
      | some (σ1, l1) =>
          match shallowRepeat κ a σ1 n with
          | none => none
          | some (σ2, l2) => some (σ2, l1 ++ l2)

/-- Display-formats each element of a handle list (the join loop of the
Array times String case of Value::binary_mul). -/
def printElems (F : FloatOps) (κ σ : List Value) : List Handle → Option (List String)
  | [] => some []
  | h :: t =>
      match derefIn κ σ h with
      | none => none
      | some v =>
          match printFormat F κ σ (σ.length + 1) v with
          | none => none
          | some s =>
              match printElems F κ σ t with
              | none => none
              | some rest => some (s :: rest)

/-- Mirrors Value::binary_add. Int plus Int uses the release-build
wrapping semantics of Rust addition. -/
def binaryAdd (F : FloatOps) (_κ σ : List Value) : Value → Value → BinRes
  | .VFloat f1, .VFloat f2 =>
      (fun p => BinRes.ok p.1 p.2) (allocV σ (.VFloat (F.fadd f1 f2)))
  | .VInt i1, .VInt i2 =>
      (fun p => BinRes.ok p.1 p.2) (allocV σ (.VInt (I64.wrap (i1 + i2))))
  | .VInt i1, .VFloat f1 =>
      (fun p => BinRes.ok p.1 p.2) (allocV σ (.VFloat (F.fadd (F.ofInt i1) f1)))
  | .VFloat f1, .VInt i1 =>
      (fun p => BinRes.ok p.1 p.2) (allocV σ (.VFloat (F.fadd f1 (F.ofInt i1))))
  | .VString s1, .VString s2 =>
      (fun p => BinRes.ok p.1 p.2) (allocV σ (.VString (s1 ++ s2)))
  | .VArray a1, .VArray a2 =>
      (fun p => BinRes.ok p.1 p.2) (allocV σ (.VArray (a1 ++ a2)))
  | _, _ => .noMatch

/-- Mirrors Value::binary_sub. -/
def binarySub (F : FloatOps) (_κ σ : List Value) : Value → Value → BinRes
  | .VFloat f1, .VFloat f2 =>
      (fun p => BinRes.ok p.1 p.2) (allocV σ (.VFloat (F.fsub f1 f2)))
  | .VInt i1, .VInt i2 =>
      (fun p => BinRes.ok p.1 p.2) (allocV σ (.VInt (I64.wrap (i1 - i2))))
  | .VInt i1, .VFloat f1 =>
      (fun p => BinRes.ok p.1 p.2) (allocV σ (.VFloat (F.fsub (F.ofInt i1) f1)))
  | .VFloat f1, .VInt i1 =>
      (fun p => BinRes.ok p.1 p.2) (allocV σ (.VFloat (F.fsub f1 (F.ofInt i1))))
  | _, _ => .noMatch

/-- Mirrors Value::binary_mul, including the Array times Int shallow
repetition and the Array times String join. -/
def binaryMul (F : FloatOps) (κ σ : List Value) : Value → Value → BinRes
  | .VFloat f1, .VFloat f2 =>
      (fun p => BinRes.ok p.1 p.2) (allocV σ (.VFloat (F.fmul f1 f2)))
  | .VInt i1, .VInt i2 =>
      (fun p => BinRes.ok p.1 p.2) (allocV σ (.VInt (I64.wrap (i1 * i2))))
  | .VInt i1, .VFloat f1 =>
      (fun p => BinRes.ok p.1 p.2) (allocV σ (.VFloat (F.fmul (F.ofInt i1) f1)))
  | .VFloat f1, .VInt i1 =>
      (fun p => BinRes.ok p.1 p.2) (allocV σ (.VFloat (F.fmul f1 (F.ofInt i1))))
  | .VArray a, .VInt i =>
      if i < 0 then
        .err "Array shallow repetition multiplier must be nonnegative"
      else
        match shallowRepeat κ a σ i.toNat with
        | none => .crash
        | some (σ1, arr) =>
            (fun p => BinRes.ok p.1 p.2) (allocV σ1 (.VArray arr))
  | .VArray a, .VString s =>
      match printElems F κ σ a with
      | none => .crash
      | some parts =>
          (fun p => BinRes.ok p.1 p.2) (allocV σ (.VString (String.intercalate s parts)))
  | _, _ => .noMatch

/-- Mirrors Value::binary_div. Rust i64 division keeps its overflow check
in every build: dividing minI by -1 panics, rendered as crash. -/
def binaryDiv (F : FloatOps) (_κ σ : List Value) : Value → Value → BinRes
  | .VFloat f1, .VFloat f2 =>
      if F.isZeroF f2 then .err ("Division By Zero: " ++ F.fmtPrint f1 ++ " / 0.0")
      else (fun p => BinRes.ok p.1 p.2) (allocV σ (.VFloat (F.fdiv f1 f2)))
  | .VInt i1, .VInt i2 =>
      if i2 = 0 then .err s!"Division By Zero: {i1} / 0"
      else if i1 = I64.minI ∧ i2 = -1 then .crash
      else (fun p => BinRes.ok p.1 p.2) (allocV σ (.VInt (i1.tdiv i2)))
  | .VInt i1, .VFloat f1 =>
      if F.isZeroF f1 then .err s!"Division By Zero: {i1} / 0.0"
      else (fun p => BinRes.ok p.1 p.2) (allocV σ (.VFloat (F.fdiv (F.ofInt i1) f1)))
  | .VFloat f1, .VInt i1 =>
      if i1 = 0 then .err ("Division By Zero: " ++ F.fmtPrint f1 ++ " / 0")
      else (fun p => BinRes.ok p.1 p.2) (allocV σ (.VFloat (F.fdiv f1 (F.ofInt i1))))
  | _, _ => .noMatch

/-- Mirrors Value::binary_mod: the source computes (l % r + r) % r with
the Rust truncated remainder; the intermediate addition wraps in release
builds, and the remainder of minI by -1 panics in every build (crash). -/
def binaryMod (F : FloatOps) (_κ σ : List Value) : Value → Value → BinRes
  | .VFloat f1, .VFloat f2 =>
      if F.isZeroF f2 then .err ("Modulo By Zero: " ++ F.fmtPrint f1 ++ " % 0.0")
      else (fun p => BinRes.ok p.1 p.2) (allocV σ (.VFloat (F.fmodF (F.fadd (F.fmodF f1 f2) f2) f2)))
  | .VInt i1, .VInt i2 =>
      if i2 = 0 then .err s!"Modulo By Zero: {i1} % 0"
      else if i1 = I64.minI ∧ i2 = -1 then .crash
      else (fun p => BinRes.ok p.1 p.2) (allocV σ (.VInt ((I64.wrap (i1.tmod i2 + i2)).tmod i2)))
  | .VInt i1, .VFloat f1 =>
      if F.isZeroF f1 then .err s!"Modulo By Zero: {i1} % 0.0"
      else (fun p => BinRes.ok p.1 p.2)
        (allocV σ (.VFloat (F.fmodF (F.fadd (F.fmodF (F.ofInt i1) f1) f1) f1)))
  | .VFloat f1, .VInt i1 =>
      if i1 = 0 then .err ("Modulo By Zero: " ++ F.fmtPrint f1 ++ " % 0")
      else (fun p => BinRes.ok p.1 p.2)
        (allocV σ (.VFloat (F.fmodF (F.fadd (F.fmodF f1 (F.ofInt i1)) (F.ofInt i1)) (F.ofInt i1))))
  | _, _ => .noMatch

/-- Mirrors Value::binary_lt: strict comparison on every accepted pair
(Int, Float, mixed, String lexicographic). -/
def binaryLt (F : FloatOps) (_κ σ : List Value) : Value → Value → BinRes
  | .VFloat f1, .VFloat f2 =>
      (fun p => BinRes.ok p.1 p.2) (allocV σ (.VBool (F.fblt f1 f2)))
  | .VInt i1, .VInt i2 =>
      (fun p => BinRes.ok p.1 p.2) (allocV σ (.VBool (decide (i1 < i2))))
  | .VInt i1, .VFloat f1 =>
      (fun p => BinRes.ok p.1 p.2) (allocV σ (.VBool (F.fblt (F.ofInt i1) f1)))
  | .VFloat f1, .VInt i1 =>
      (fun p => BinRes.ok p.1 p.2) (allocV σ (.VBool (F.fblt f1 (F.ofInt i1))))
  | .VString s1, .VString s2 =>
      (fun p => BinRes.ok p.1 p.2) (allocV σ (.VBool (decide (s1 < s2))))
  | _, _ => .noMatch

/-- Mirrors Value::binary_gt. -/
def binaryGt (F : FloatOps) (_κ σ : List Value) : Value → Value → BinRes
  | .VFloat f1, .VFloat f2 =>
      (fun p => BinRes.ok p.1 p.2) (allocV σ (.VBool (F.fbgt f1 f2)))
  | .VInt i1, .VInt i2 =>
      (fun p => BinRes.ok p.1 p.2) (allocV σ (.VBool (decide (i2 < i1))))
  | .VInt i1, .VFloat f1 =>
      (fun p => BinRes.ok p.1 p.2) (allocV σ (.VBool (F.fbgt (F.ofInt i1) f1)))
  | .VFloat f1, .VInt i1 =>
      (fun p => BinRes.ok p.1 p.2) (allocV σ (.VBool (F.fbgt f1 (F.ofInt i1))))
  | .VString s1, .VString s2 =>
      (fun p => BinRes.ok p.1 p.2) (allocV σ (.VBool (decide (s2 < s1))))
  | _, _ => .noMatch

/-- Mirrors Value::binary_le: non-strict comparison. -/
def binaryLe (F : FloatOps) (_κ σ : List Value) : Value → Value → BinRes
  | .VFloat f1, .VFloat f2 =>
      (fun p => BinRes.ok p.1 p.2) (allocV σ (.VBool (F.fble f1 f2)))
  | .VInt i1, .VInt i2 =>
      (fun p => BinRes.ok p.1 p.2) (allocV σ (.VBool (decide (i1 ≤ i2))))
  | .VInt i1, .VFloat f1 =>
      (fun p => BinRes.ok p.1 p.2) (allocV σ (.VBool (F.fble (F.ofInt i1) f1)))
  | .VFloat f1, .VInt i1 =>
      (fun p => BinRes.ok p.1 p.2) (allocV σ (.VBool (F.fble f1 (F.ofInt i1))))
  | .VString s1, .VString s2 =>
      (fun p => BinRes.ok p.1 p.2) (allocV σ (.VBool (decide (s1 ≤ s2))))
  | _, _ => .noMatch

/-- Mirrors Value::binary_ge. -/
def binaryGe (F : FloatOps) (_κ σ : List Value) : Value → Value → BinRes
  | .VFloat f1, .VFloat f2 =>
      (fun p => BinRes.ok p.1 p.2) (allocV σ (.VBool (F.fbge f1 f2)))
  | .VInt i1, .VInt i2 =>
      (fun p => BinRes.ok p.1 p.2) (allocV σ (.VBool (decide (i2 ≤ i1))))
  | .VInt i1, .VFloat f1 =>
      (fun p => BinRes.ok p.1 p.2) (allocV σ (.VBool (F.fbge (F.ofInt i1) f1)))
  | .VFloat f1, .VInt i1 =>
      (fun p => BinRes.ok p.1 p.2) (allocV σ (.VBool (F.fbge f1 (F.ofInt i1))))
  | .VString s1, .VString s2 =>
      (fun p => BinRes.ok p.1 p.2) (allocV σ (.VBool (decide (s2 ≤ s1))))
  | _, _ => .noMatch

/-- Mirrors Value::get_element. The callee has been dereferenced by the
caller (the GET dispatch), the index handle is dereferenced here, exactly
as in the source. The String case allocates a fresh one-character
string; the Array case returns the element handle itself. -/
def getElement (κ σ : List Value) (callee : Value) (idx : Handle) : BinRes :=
  match callee with
  | .VArray a =>
      match derefIn κ σ idx with
      | none => .crash
      | some (.VInt i) =>
          if i < 0 then .err s!"Negative index not supported: {i}"
          else
            match a.get? i.toNat with
            | some v => .ok σ v
            | none => .err s!"Index out of range: {i}"
      | some other => .err ("Array index must be an integer, not " ++ typeName other)
  | .VString s =>
      match derefIn κ σ idx with
      | none => .crash
      | some (.VInt i) =>
          if i < 0 then .err s!"Negative index not supported: {i}"
          else
            match s.data.get? i.toNat with
            | some c =>
                (fun p => BinRes.ok p.1 p.2) (allocV σ (.VString (String.mk [c])))
            | none => .err s!"Index out of range: {i}"
      | some other => .err ("String index must be an integer, not " ++ typeName other)
  | _ => .err ("Cannot get element from type " ++ typeName callee)


/-! ### Bytecode ISA (src/vm/bytecode.rs) -/

/-- Opcode NOOP. The bytecodes macro numbers the opcodes consecutively
from 0 in declaration order. -/
def NOOP : Nat := 0

/-- Opcode POP_LAST. -/
def POP_LAST : Nat := 1

/-- Opcode REPLACE (one operand). -/
def REPLACE : Nat := 2

/-- Opcode SET_IN_PLACE. -/
def SET_IN_PLACE : Nat := 3

/-- Opcode LOAD_CONST (one operand). -/
def LOAD_CONST : Nat := 4

/-- Opcode LOAD_LOCAL (one operand). -/
def LOAD_LOCAL : Nat := 5

/-- Opcode MAKE_ARRAY (one operand). -/
def MAKE_ARRAY : Nat := 6

/-- Opcode DEBUG_PRINT. -/
def DEBUG_PRINT : Nat := 7

/-- Opcode ECHO_PRINT (declared in the ISA; the interpreter has no arm
for it, so executing it falls through to the unknown-bytecode error). -/
def ECHO_PRINT : Nat := 8

/-- Opcode JUMP_IF_FALSE (one operand). -/
def JUMP_IF_FALSE : Nat := 9

/-- Opcode JUMP_IF_FALSE_NO_POP (one operand). -/
def JUMP_IF_FALSE_NO_POP : Nat := 10

/-- Opcode JUMP (one operand). -/
def JUMP : Nat := 11

/-- Opcode GET. -/
def GET : Nat := 12

/-- Opcode UNARY_NEG. -/
def UNARY_NEG : Nat := 13

/-- Opcode UNARY_NOT. -/
def UNARY_NOT : Nat := 14

/-- Opcode BINARY_ADD. -/
def BINARY_ADD : Nat := 15

/-- Opcode BINARY_SUB. -/
def BINARY_SUB : Nat := 16

/-- Opcode BINARY_MUL. -/
def BINARY_MUL : Nat := 17

/-- Opcode BINARY_DIV. -/
def BINARY_DIV : Nat := 18

/-- Opcode BINARY_MOD. -/
def BINARY_MOD : Nat := 19

/-- Opcode BINARY_EXP (declared in the ISA; the interpreter has no arm
for it, and the compiler never emits it). -/
def BINARY_EXP : Nat := 20

/-- Opcode BINARY_EQ. -/
def BINARY_EQ : Nat := 21

/-- Opcode BINARY_NE. -/
def BINARY_NE : Nat := 22

/-- Opcode BINARY_LT. -/
def BINARY_LT : Nat := 23

/-- Opcode BINARY_LE. -/
def BINARY_LE : Nat := 24

/-- Opcode BINARY_GT. -/
def BINARY_GT : Nat := 25

/-- Opcode BINARY_GE. -/
def BINARY_GE : Nat := 26

/-- Mirrors fn operands: how many immediate operand units an opcode
consumes from the stream. -/
def operands (b : Nat) : Nat :=
  if b = LOAD_CONST ∨ b = LOAD_LOCAL ∨ b = REPLACE ∨ b = JUMP_IF_FALSE ∨
     b = JUMP_IF_FALSE_NO_POP ∨ b = JUMP then 1 else 0

/-! ### VM state (struct VM of src/vm/vm_bc.rs) -/

/-- Capacity of the evaluation stack (pub const STACK_SIZE). -/
def STACK_SIZE : Nat := 8192

/-- Capacity of the constant pool (pub const CONSTANT_SIZE). -/
def CONSTANT_SIZE : Nat := 1024

/-- Reserved constant-pool slot of false. -/
def BOOL_FALSE_CONSTANT : Nat := 0

/-- Reserved constant-pool slot of true. -/
def BOOL_TRUE_CONSTANT : Nat := 1

/-- Reserved constant-pool slot of null. -/
def NULL_CONSTANT : Nat := 2

/-- One error record. The source formats the error into a string built
from the source line under the recorded span; here the determining data
(compile-time versus runtime, the span used, and the message) is kept
structured. -/
structure VMErr where
  atRuntime : Bool
  span : AstSpan
  msg : String
deriving DecidableEq

/-- The virtual machine and compiler state, mirroring struct VM.  The
evaluation stack is a list with the bottom first (index 0 is local slot
0); localMap keeps the innermost scope first.  heap is the growing
allocation arena of alloc_new_value (src/vm/memory.rs), and output
collects the lines written by DEBUG_PRINT.  The source string itself and
the rendering of errors against it are not modelled; an error keeps its
span and message structured instead. -/
structure VM where
  bytecodes : List Nat
  lines : List AstSpan
  pc : Nat
  constants : List Value
  constantHashInt : List (Int × Nat)
  breakJumpPatches : List (List Nat)
  nextJumpPatches : List (List Nat)
  localMap : List (List (String × Nat))
  scopeDepth : Nat
  count : Nat
  heap : List Value
  stack : List Handle
  lastPopped : Option Handle
  replMode : Bool
  error : Option VMErr
  output : List String
deriving DecidableEq

/-- Mirrors the Default instance of VM: reserved constants false, true,
null and one open (global) scope. -/
def defaultVM : VM where
  bytecodes := []
  lines := []
  pc := 0
  constants := [.VBool false, .VBool true, .VNull]
  constantHashInt := []
  breakJumpPatches := []
  nextJumpPatches := []
  localMap := [[]]
  scopeDepth := 0
  count := 0
  heap := []
  stack := []
  lastPopped := none
  replMode := false
  error := none
  output := []

/-- Pushes a handle on the evaluation stack (top is the end of the list). -/
def pushS (st : List Handle) (h : Handle) : List Handle := st ++ [h]

/-- The top of the evaluation stack. -/
def topS (st : List Handle) : Option Handle := st.getLast?

/-- The stack without its top element. -/
def popS (st : List Handle) : List Handle := st.dropLast

/-- Pops n handles (MAKE_ARRAY); returns them in pop order together with
the remaining stack, or none when the stack runs out (the unwrap panic). -/
def popN (st : List Handle) : Nat → Option (List Handle × List Handle)
  | 0 => some ([], st)
  | n + 1 =>
      match topS st with
      | none => none
      | some h =>
          match popN (popS st) n with
          | none => none
          | some (l, rest) => some (h :: l, rest)

/-- Dereferences a handle in a VM state. -/
def derefVM (s : VM) (h : Handle) : Option Value :=
  derefIn s.constants s.heap h

/-- Writes a value through a handle (the raw-pointer write of
regular_copy_to). -/
def writeVM (s : VM) (h : Handle) (v : Value) : VM :=
  match h with
  | .heapH i => { s with heap := s.heap.set i v }
  | .constH i => { s with constants := s.constants.set i v }

/-- Outcome of dispatching one opcode: next continues the loop, halt is
the early return the error paths take, crash is a Rust panic or UB. -/
inductive Step where
  | next : VM → Step
  | halt : VM → Step
  | crash : Step
deriving DecidableEq

/-- Mirrors VM::runtime_error followed by return: reads the span table at
the current (already advanced) pc and fills the error slot.  Indexing
lines out of range is the panic the source would take on
self.lines[self.pc]. -/
def runtimeError (s : VM) (msg : String) : Step :=
  match s.lines.get? s.pc with
  | none => .crash
  | some sp => .halt { s with error := some ⟨true, sp, msg⟩ }

/-- Mirrors read_bytecode for an operand: yields the unit at pc and
advances pc; none is the index panic past the end of the stream. -/
def readOperand (s : VM) : Option (Nat × VM) :=
  match s.bytecodes.get? s.pc with
  | none => none
  | some a => some (a, { s with pc := s.pc + 1 })

/-- An ArrayVec push: panics (crash) when the stack is at capacity. -/
def pushChecked (s : VM) (h : Handle) : Option VM :=
  if s.stack.length ≥ STACK_SIZE then none
  else some { s with stack := pushS s.stack h }

/-- Shared dispatch shape of the fallible binary opcodes (ADD, SUB, MUL,
DIV, MOD, LT, LE, GT, GE): pop right then left, dereference both, run the
value operation, push the result or report the error, exactly as each
arm of VM::execute does. -/
def binStep (F : FloatOps) (s : VM)
    (op : FloatOps → List Value → List Value → Value → Value → BinRes)
    (sym : String) : Step :=
  match topS s.stack with
  | none => .crash
  | some rh =>
    let s1 : VM := { s with stack := popS s.stack }
    match topS s1.stack with
    | none => .crash
    | some lh =>
      let s2 : VM := { s1 with stack := popS s1.stack }
      match derefVM s2 rh, derefVM s2 lh with
      | some r, some l =>
          match op F s2.constants s2.heap l r with
          | .ok σ1 h =>
              match pushChecked { s2 with heap := σ1 } h with
              | none => .crash
              | some s3 => .next s3
          | .err e => runtimeError s2 e
          | .noMatch =>
              runtimeError s2
                ("Unsupported Binary operation: " ++ typeName l ++ " " ++ sym ++ " " ++ typeName r)
          | .crash => .crash
      | _, _ => .crash

/-- Shared dispatch shape of BINARY_EQ and BINARY_NE: is_equal never
fails, its Bool (negated for NE) is allocated and pushed.  The recursion
fuel heap+1 is exact for acyclic structures; exhaustion renders the
unbounded recursion Rust performs on a cyclic array. -/
def eqStep (F : FloatOps) (s : VM) (negate : Bool) : Step :=
  match topS s.stack with
  | none => .crash
  | some rh =>
    let s1 : VM := { s with stack := popS s.stack }
    match topS s1.stack with
    | none => .crash
    | some lh =>
      let s2 : VM := { s1 with stack := popS s1.stack }
      match derefVM s2 rh, derefVM s2 lh with
      | some r, some l =>
          match isEqualV F s2.constants s2.heap (s2.heap.length + 1) l r with
          | none => .crash
          | some b =>
              match allocV s2.heap (.VBool (if negate then !b else b)) with
              | (σ1, h) =>
                  match pushChecked { s2 with heap := σ1 } h with
                  | none => .crash
                  | some s3 => .next s3
      | _, _ => .crash

/-- Dispatch arm of POP_LAST: pop (without unwrap); in REPL mode the
popped handle (or none) is stored into last_popped. -/
def popLastStep (s : VM) : Step :=
  let v := topS s.stack
  let s1 : VM := { s with stack := popS s.stack }
  if s1.replMode then .next { s1 with lastPopped := v } else .next s1

/-- Dispatch arm of REPLACE: read the slot index, pop (unwrap), pad the
stack with the address of constants[NULL_CONSTANT] up to the slot, store
the shallow copy into the slot. -/
def replaceStep (s : VM) : Step :=
  match readOperand s with
  | none => .crash
  | some (idx, s1) =>
      match topS s1.stack with
      | none => .crash
      | some v =>
          let s2 : VM := { s1 with stack := popS s1.stack }
          if s2.stack.length ≤ idx then
            if s2.constants.length ≤ NULL_CONSTANT then .crash
            else if STACK_SIZE < idx + 1 then .crash
            else
              let s3 : VM :=
                { s2 with stack :=
                    s2.stack ++ List.replicate (idx + 1 - s2.stack.length) (.constH NULL_CONSTANT) }
              match shallowCopyIn s3.constants s3.heap v with
              | none => .crash
              | some (σ1, h1) =>
                  .next { s3 with heap := σ1, stack := s3.stack.set idx h1 }
          else
            match shallowCopyIn s2.constants s2.heap v with
            | none => .crash
            | some (σ1, h1) =>
                .next { s2 with heap := σ1, stack := s2.stack.set idx h1 }

/-- Dispatch arm of SET_IN_PLACE: pop the value and the pointer, write a
clone of the value through the pointer, push the value handle back. -/
def setInPlaceStep (s : VM) : Step :=
  match topS s.stack with
  | none => .crash
  | some v =>
      let s1 : VM := { s with stack := popS s.stack }
      match topS s1.stack with
      | none => .crash
      | some p =>
          let s2 : VM := { s1 with stack := popS s1.stack }
          match derefVM s2 v with
          | none => .crash
          | some val =>
              if (derefVM s2 p).isNone then .crash
              else
                match pushChecked (writeVM s2 p val) v with
                | none => .crash
                | some s3 => .next s3

/-- Dispatch arm of LOAD_CONST: clone constants[idx] into a fresh arena
cell (the allocation happens before the capacity test, exactly as the
try_push argument is evaluated first), then push or fault with the stack
overflow error. -/
def loadConstStep (s : VM) : Step :=
  match readOperand s with
  | none => .crash
  | some (idx, s1) =>
      match s1.constants.get? idx with
      | none => .crash
      | some c =>
          match allocV s1.heap c with
          | (σ1, h) =>
              let s2 : VM := { s1 with heap := σ1 }
              match pushChecked s2 h with
              | none => runtimeError s2 "Stack overflow"
              | some s3 => .next s3

/-- Dispatch arm of LOAD_LOCAL: push the handle stored in the addressed
slot (aliasing, no copy). -/
def loadLocalStep (s : VM) : Step :=
  match readOperand s with
  | none => .crash
  | some (idx, s1) =>
      match s1.stack.get? idx with
      | none => .crash
      | some h =>
          match pushChecked s1 h with
          | none => .crash
          | some s2 => .next s2

/-- Dispatch arm of MAKE_ARRAY: pop the announced number of handles (in
pop order) into a fresh array cell and push its handle. -/
def makeArrayStep (s : VM) : Step :=
  match readOperand s with
  | none => .crash
  | some (n, s1) =>
      match popN s1.stack n with
      | none => .crash
      | some (elems, rest) =>
          match allocV s1.heap (.VArray elems) with
          | (σ1, h) =>
              match pushChecked { s1 with heap := σ1, stack := rest } h with
              | none => .crash
              | some s2 => .next s2

/-- Dispatch arm of DEBUG_PRINT: pop, debug-format, write one line. -/
def debugPrintStep (F : FloatOps) (s : VM) : Step :=
  match topS s.stack with
  | none => .crash
  | some h =>
      let s1 : VM := { s with stack := popS s.stack }
      match derefVM s1 h with
      | none => .crash
      | some v =>
          match debugFormat F s1.constants s1.heap (s1.heap.length + 1) v with
          | none => .crash
          | some str => .next { s1 with output := s1.output ++ [str] }

/-- Dispatch arm of JUMP_IF_FALSE: read the target, pop, jump when the
popped value is not truthy. -/
def jumpIfFalseStep (F : FloatOps) (s : VM) : Step :=
  match readOperand s with
  | none => .crash
  | some (addr, s1) =>
      match topS s1.stack with
      | none => .crash
      | some h =>
          let s2 : VM := { s1 with stack := popS s1.stack }
          match derefVM s2 h with
          | none => .crash
          | some v => .next (if isTruthy F v then s2 else { s2 with pc := addr })

/-- Dispatch arm of JUMP_IF_FALSE_NO_POP. Despite the name, the body the
source gives this arm is identical to the JUMP_IF_FALSE arm: it also
pops unconditionally. -/
def jumpIfFalseNoPopStep (F : FloatOps) (s : VM) : Step :=
  match readOperand s with
  | none => .crash
  | some (addr, s1) =>
      match topS s1.stack with
      | none => .crash
      | some h =>
          let s2 : VM := { s1 with stack := popS s1.stack }
          match derefVM s2 h with
          | none => .crash
          | some v => .next (if isTruthy F v then s2 else { s2 with pc := addr })

/-- Dispatch arm of JUMP. -/
def jumpStep (s : VM) : Step :=
  match readOperand s with
  | none => .crash
  | some (addr, s1) => .next { s1 with pc := addr }

/-- Dispatch arm of GET: pop the index handle and the collection handle,
delegate to get_element, push the result or fault. -/
def getStep (s : VM) : Step :=
  match topS s.stack with
  | none => .crash
  | some ih =>
      let s1 : VM := { s with stack := popS s.stack }
      match topS s1.stack with
      | none => .crash
      | some ch =>
          let s2 : VM := { s1 with stack := popS s1.stack }
          match derefVM s2 ch with
          | none => .crash
          | some callee =>
              match getElement s2.constants s2.heap callee ih with
              | .ok σ1 h =>
                  match pushChecked { s2 with heap := σ1 } h with
                  | none => .crash
                  | some s3 => .next s3
              | .err e => runtimeError s2 e
              | .noMatch => .crash
              | .crash => .crash

/-- Dispatch arm of UNARY_NEG: bool gets a dedicated hint error, Int is
negated with saturation, every other variant is unsupported. -/
def unaryNegStep (s : VM) : Step :=
  match topS s.stack with
  | none => .crash
  | some h =>
      let s1 : VM := { s with stack := popS s.stack }
      match derefVM s1 h with
      | none => .crash
      | some (.VBool _) =>
          runtimeError s1 "Unsupported Unary operation: -bool (Hint: Use !bool instead)"
      | some (.VInt i) =>
          match allocV s1.heap (.VInt (I64.satNeg i)) with
          | (σ1, h1) =>
              match pushChecked { s1 with heap := σ1 } h1 with
              | none => .crash
              | some s2 => .next s2
      | some v =>
          runtimeError s1 ("Unsupported Unary operation: -" ++ typeName v)

/-- Dispatch arm of UNARY_NOT: always succeeds, pushing the negated
truthiness. -/
def unaryNotStep (F : FloatOps) (s : VM) : Step :=
  match topS s.stack with
  | none => .crash
  | some h =>
      let s1 : VM := { s with stack := popS s.stack }
      match derefVM s1 h with
      | none => .crash
      | some v =>
          match allocV s1.heap (.VBool (!(isTruthy F v))) with
          | (σ1, h1) =>
              match pushChecked { s1 with heap := σ1 } h1 with
              | none => .crash
              | some s2 => .next s2

/-- Dispatch of one already-fetched opcode, mirroring the match of
VM::execute; pc has been advanced past the opcode unit. Opcodes the
interpreter has no arm for (ECHO_PRINT, BINARY_EXP, out of range) take
the unknown-bytecode error. -/
def execOp (F : FloatOps) (s : VM) (bc : Nat) : Step :=
  match bc with
  | 0 => .next s
  | 1 => popLastStep s
  | 2 => replaceStep s
  | 3 => setInPlaceStep s
  | 4 => loadConstStep s
  | 5 => loadLocalStep s
  | 6 => makeArrayStep s
  | 7 => debugPrintStep F s
  | 9 => jumpIfFalseStep F s
  | 10 => jumpIfFalseNoPopStep F s
  | 11 => jumpStep s
  | 12 => getStep s
  | 13 => unaryNegStep s
  | 14 => unaryNotStep F s
  | 15 => binStep F s binaryAdd "+"
  | 16 => binStep F s binarySub "-"
  | 17 => binStep F s binaryMul "*"
  | 18 => binStep F s binaryDiv "/"
  | 19 => binStep F s binaryMod "%"
  | 21 => eqStep F s false
  | 22 => eqStep F s true
  | 23 => binStep F s binaryLt "<"
  | 24 => binStep F s binaryLe "<="
  | 25 => binStep F s binaryGt ">"
  | 26 => binStep F s binaryGe ">="
  | b => runtimeError s s!"Unknown bytecode: {b}"

/-- Executes one iteration of the interpretive loop: fetch the opcode at
pc, advance pc, dispatch. -/
def execStep (F : FloatOps) (s : VM) : Step :=
  match s.bytecodes.get? s.pc with
  | none => .crash
  | some bc => execOp F { s with pc := s.pc + 1 } bc

/-- Result of running the interpretive loop to completion. -/
inductive ExecOutcome where
  | finished : VM → ExecOutcome
  | crashed : ExecOutcome
  | outOfFuel : ExecOutcome
deriving DecidableEq

/-- The interpretive loop of VM::execute: while pc is inside the stream,
step; an error arm returns early (finished with the error set). -/
def execLoop (F : FloatOps) : Nat → VM → ExecOutcome
  | 0, _ => .outOfFuel
  | fuel + 1, s =>
      if s.pc < s.bytecodes.length then
        match execStep F s with
        | .next s1 => execLoop F fuel s1
        | .halt s1 => .finished s1
        | .crash => .crashed
      else .finished s

/-- Mirrors VM::execute: truncate the stack to the compiler slot count,
clear last_popped, reset pc, run the loop. -/
def execute (F : FloatOps) (fuel : Nat) (s : VM) : ExecOutcome :=
  execLoop F fuel { s with stack := s.stack.take s.count, lastPopped := none, pc := 0 }

/-- Projects the final state out of an outcome. -/
def outcomeState : ExecOutcome → Option VM
  | .finished s => some s
  | _ => none


/-! ### AST (the ast module consumed by vm_bc.rs)

The ast module itself is not under src (src/parser/ast.rs is a different,
older parser); its shape is fully determined by the match arms of
compile_statement and compile_expression and by the field accesses they
perform, and agrees with the external-interface section of the
specification. Statement has exactly the five variants the compiler
matches; integer and float literals carry their source text. -/

mutual

/-- Expressions of the surface language (see the thirteen arms of
compile_expression). -/
inductive Expression where
  | stringE : String → AstSpan → Expression
  | intE : String → AstSpan → Expression
  | floatE : String → AstSpan → Expression
  | boolE : Bool → AstSpan → Expression
  | arrayE : List Expression → AstSpan → Expression
  | getVar : String → AstSpan → Expression
  | setVar : String → Expression → AstSpan → Expression
  | infixE : Expression → String → Expression → AstSpan → Expression
  | prefixE : String → Expression → AstSpan → Expression
  | indexE : Expression → Expression → AstSpan → Expression
  | ifE : Expression → List Statement → List Statement → AstSpan → Expression
  | whileE : Expression → List Statement → AstSpan → Expression
  | doE : List Statement → AstSpan → Expression

/-- Statements of the surface language (see the five arms of
compile_statement). -/
inductive Statement where
  | exprStmt : Expression → AstSpan → Statement
  | debugPrint : Expression → AstSpan → Statement
  | breakS : AstSpan → Statement
  | nextS : AstSpan → Statement
  | pointerAssign : Expression → Expression → AstSpan → Statement

end

/-- A program is an ordered sequence of statements. -/
def Program := List Statement

/-! ### Scope and locals resolution (impl VM, compilation half) -/

/-- Lookup of a name in one scope map. -/
def lookupScope : List (String × Nat) → String → Option Nat
  | [], _ => none
  | (k, v) :: t, n => if k = n then some v else lookupScope t n

/-- Mirrors resolve_local: scopes are searched innermost first (the
source iterates indices scope_depth down to 0; localMap keeps the
innermost scope at the head). -/
def resolveIn : List (List (String × Nat)) → String → Option Nat
  | [], _ => none
  | sc :: t, n =>
      match lookupScope sc n with
      | some v => some v
      | none => resolveIn t n

/-- Mirrors begin_scope. -/
def beginScope (s : VM) : VM :=
  { s with scopeDepth := s.scopeDepth + 1, localMap := [] :: s.localMap }

/-- Mirrors end_scope: drops the innermost scope and releases its slots.
The scopes are balanced by construction, so the unwrap of the source is
modelled by the unreachable identity fallback on an empty scope stack. -/
def endScope (s : VM) : VM :=
  match s.localMap with
  | [] => { s with scopeDepth := s.scopeDepth - 1 }
  | sc :: t =>
      { s with scopeDepth := s.scopeDepth - 1, localMap := t, count := s.count - sc.length }

/-- Mirrors add_local: an existing binding in any open scope is reused,
otherwise the next slot is bound in the innermost scope. -/
def addLocal (s : VM) (name : String) : VM × Nat :=
  match resolveIn s.localMap name with
  | some idx => (s, idx)
  | none =>
      match s.localMap with
      | [] => (s, s.count)
      | sc :: t =>
          ({ s with localMap := (sc ++ [(name, s.count)]) :: t, count := s.count + 1 }, s.count)

/-- Mirrors compile_error: fills the error slot with a compile-time
error; the source renders the message against the source text, the
determining data is kept structured. -/
def compileError (s : VM) (sp : AstSpan) (msg : String) : VM :=
  { s with error := some ⟨false, sp, msg⟩ }

/-- Mirrors push_bytecode: appends one code unit and its span. -/
def pushBytecode (s : VM) (b : Nat) (sp : AstSpan) : VM :=
  { s with bytecodes := s.bytecodes ++ [b], lines := s.lines ++ [sp] }

/-- Accumulates decimal digits; fails on a non-digit. -/
def digitsAux : Nat → List Char → Option Nat
  | acc, [] => some acc
  | acc, c :: t =>
      if c.isDigit then digitsAux (acc * 10 + (c.toNat - '0'.toNat)) t else none

/-- Parses a nonempty digit string. -/
def digitsToNat : List Char → Option Nat
  | [] => none
  | l => digitsAux 0 l

/-- Mirrors str::parse::<i64>: optional sign, decimal digits, failure
outside the i64 range. -/
def parseI64 (str : String) : Option Int :=
  match str.data with
  | '+' :: rest =>
      (digitsToNat rest).bind fun n =>
        if (n : Int) ≤ I64.maxI then some (n : Int) else none
  | '-' :: rest =>
      (digitsToNat rest).bind fun n =>
        if I64.minI ≤ -(n : Int) then some (-(n : Int)) else none
  | l =>
      (digitsToNat l).bind fun n =>
        if (n : Int) ≤ I64.maxI then some (n : Int) else none

/-- Lookup in the integer deduplication table (constant_hash_int). -/
def lookupInt : List (Int × Nat) → Int → Option Nat
  | [], _ => none
  | (k, v) :: t, n => if k = n then some v else lookupInt t n

/-- Writes target into every recorded operand offset (the backfill loops
over a patch list). -/
def patchAll (bcs : List Nat) (offs : List Nat) (target : Nat) : List Nat :=
  offs.foldl (fun b o => b.set o target) bcs

/-- Strips a trailing POP_LAST so a block keeps its value, or pushes a
null load when there is none (shared tail of the If, Do and else
branches). -/
def stripOrNull (s : VM) (sp : AstSpan) : VM :=
  if s.bytecodes.getLast? = some POP_LAST then
    { s with bytecodes := s.bytecodes.dropLast, lines := s.lines.dropLast }
  else
    pushBytecode (pushBytecode s LOAD_CONST sp) NULL_CONSTANT sp


/-- The u16 cast (as Byte) the source applies to every value it stores
into the bytecode stream. -/
def byteOf (n : Nat) : Nat := n % 65536

/-- Maps a non-short-circuit infix operator to its opcode (the inner
match of the Infix arm of compile_expression). -/
def binOpcodeFor (op : String) : Option Nat :=
  if op = "+" then some BINARY_ADD
  else if op = "-" then some BINARY_SUB
  else if op = "*" then some BINARY_MUL
  else if op = "/" then some BINARY_DIV
  else if op = "%" then some BINARY_MOD
  else if op = "==" then some BINARY_EQ
  else if op = "!=" then some BINARY_NE
  else if op = "<" then some BINARY_LT
  else if op = "<=" then some BINARY_LE
  else if op = ">" then some BINARY_GT
  else if op = ">=" then some BINARY_GE
  else none

/-- Tail of the While arm of compile_expression, from the back jump on:
emit JUMP loop_start, patch the exit jump to the current length, pop the
break frame and backfill every recorded offset with that same length
(the position at which the trailing null push is then emitted), pop the
next frame and backfill it with loop_start, finally push the null load.
The frames are nonempty by construction (the While arm pushed them); the
unwrap of the source is modelled by the unreachable failure fallback. -/
def compileWhileFinish (s5 : VM) (loopStart patchLoc : Nat) (sp : AstSpan) : VM × Bool :=
  let s6 := pushBytecode (pushBytecode s5 JUMP sp) (byteOf loopStart) sp
  let s7 : VM := { s6 with bytecodes := s6.bytecodes.set patchLoc (byteOf s6.bytecodes.length) }
  match s7.breakJumpPatches with
  | [] => (s7, false)
  | bl :: brest =>
      let s8 : VM := { s7 with
        bytecodes := patchAll s7.bytecodes bl (byteOf s7.bytecodes.length),
        breakJumpPatches := brest }
      match s8.nextJumpPatches with
      | [] => (s8, false)
      | nl :: nrest =>
          let s9 : VM := { s8 with
            bytecodes := patchAll s8.bytecodes nl (byteOf loopStart),
            nextJumpPatches := nrest }
          (pushBytecode (pushBytecode s9 LOAD_CONST sp) NULL_CONSTANT sp, true)

/-- Argument of the combined compilation function. -/
inductive CompArg where
  | prog : List Statement → CompArg
  | stmt : Statement → CompArg
  | expr : Expression → CompArg
  | exprList : List Expression → CompArg

/-- Combined embedding of compile_program, compile_statement and
compile_expression (one function, structurally recursive on fuel so that
it evaluates by kernel reduction; every recursive call of the source
decrements the fuel). The Bool is the success flag the source returns;
running out of fuel reports failure. -/
def compileF (F : FloatOps) : Nat → VM → CompArg → VM × Bool
  | 0, s, _ => (s, false)
  | _ + 1, s, .prog [] => (s, true)
  | fuel + 1, s, .prog (st :: rest) =>
      match compileF F fuel s (.stmt st) with
      | (s1, false) => (s1, false)
      | (s1, true) => compileF F fuel s1 (.prog rest)
  | fuel + 1, s, .stmt (.exprStmt e sp) =>
      match compileF F fuel s (.expr e) with
      | (s1, false) => (s1, false)
      | (s1, true) => (pushBytecode s1 POP_LAST sp, true)
  | fuel + 1, s, .stmt (.debugPrint e sp) =>
      match compileF F fuel s (.expr e) with
      | (s1, false) => (s1, false)
      | (s1, true) => (pushBytecode s1 DEBUG_PRINT sp, true)
  | _ + 1, s, .stmt (.breakS sp) =>
      let s1 := pushBytecode s JUMP sp
      match s1.breakJumpPatches with
      | [] =>
          (compileError s1 sp "Break statement outside of loop is not allowed", false)
      | frame :: t =>
          let s2 : VM := { s1 with breakJumpPatches := (frame ++ [s1.bytecodes.length]) :: t }
          (pushBytecode s2 0 sp, true)
  | _ + 1, s, .stmt (.nextS sp) =>
      let s1 := pushBytecode s JUMP sp
      match s1.nextJumpPatches with
      | [] =>
          (compileError s1 sp "Next statement outside of loop is not allowed", false)
      | frame :: t =>
          let s2 : VM := { s1 with nextJumpPatches := (frame ++ [s1.bytecodes.length]) :: t }
          (pushBytecode s2 0 sp, true)
  | fuel + 1, s, .stmt (.pointerAssign ptr val sp) =>
      match compileF F fuel s (.expr ptr) with
      | (s1, false) => (s1, false)
      | (s1, true) =>
          match compileF F fuel s1 (.expr val) with
          | (s2, false) => (s2, false)
          | (s2, true) => (pushBytecode s2 SET_IN_PLACE sp, true)
  | _ + 1, s, .exprList [] => (s, true)
  | fuel + 1, s, .exprList (e :: rest) =>
      -- the Array arm of the source ignores the success flag of elements
      match compileF F fuel s (.expr e) with
      | (s1, _) => compileF F fuel s1 (.exprList rest)
  | _ + 1, s, .expr (.stringE v sp) =>
      if s.constants.length ≥ CONSTANT_SIZE then
        (compileError s sp s!"Constant exceeds limit of {CONSTANT_SIZE}", false)
      else
        let s1 : VM := { s with constants := s.constants ++ [.VString v] }
        (pushBytecode (pushBytecode s1 LOAD_CONST sp) (byteOf s1.constants.length - 1) sp, true)
  | _ + 1, s, .expr (.intE v sp) =>
      match parseI64 v with
      | none => (compileError s sp "Integer literal too large", false)
      | some val =>
          match lookupInt s.constantHashInt val with
          | some k =>
              (pushBytecode (pushBytecode s LOAD_CONST sp) k sp, true)
          | none =>
              if s.constants.length ≥ CONSTANT_SIZE then
                (compileError s sp s!"Constant exceeds limit of {CONSTANT_SIZE}", false)
              else
                let s1 : VM := { s with constants := s.constants ++ [.VInt val] }
                let idx := byteOf s1.constants.length - 1
                let s2 : VM := { s1 with constantHashInt := (val, idx) :: s1.constantHashInt }
                (pushBytecode (pushBytecode s2 LOAD_CONST sp) idx sp, true)
  | _ + 1, s, .expr (.floatE v sp) =>
      match F.parseF v with
      | none => (compileError s sp "Integer literal too large", false)
      | some bits =>
          if s.constants.length ≥ CONSTANT_SIZE then
            (compileError s sp s!"Constant exceeds limit of {CONSTANT_SIZE}", false)
          else
            let s1 : VM := { s with constants := s.constants ++ [.VFloat bits] }
            (pushBytecode (pushBytecode s1 LOAD_CONST sp) (byteOf s1.constants.length - 1) sp, true)
  | _ + 1, s, .expr (.boolE b sp) =>
      let idx := if b then BOOL_TRUE_CONSTANT else BOOL_FALSE_CONSTANT
      (pushBytecode (pushBytecode s LOAD_CONST sp) (byteOf idx) sp, true)
  | fuel + 1, s, .expr (.arrayE values sp) =>
      match compileF F fuel s (.exprList values.reverse) with
      | (s1, _) =>
          (pushBytecode (pushBytecode s1 MAKE_ARRAY sp) (byteOf values.length) sp, true)
  | _ + 1, s, .expr (.getVar name sp) =>
      match resolveIn s.localMap name with
      | some idx =>
          (pushBytecode (pushBytecode s LOAD_LOCAL sp) (byteOf idx) sp, true)
      | none =>
          (compileError s sp ("Variable \x27" ++ name ++ "\x27 is not defined"), false)
  | fuel + 1, s, .expr (.setVar name value sp) =>
      match addLocal s name with
      | (s1, replace) =>
          match compileF F fuel s1 (.expr value) with
          | (s2, false) => (s2, false)
          | (s2, true) =>
              let s3 := pushBytecode (pushBytecode s2 REPLACE sp) (byteOf replace) sp
              (pushBytecode (pushBytecode s3 LOAD_LOCAL sp) (byteOf replace) sp, true)
  | fuel + 1, s, .expr (.infixE left op right sp) =>
      if op = "&&" then
        match compileF F fuel s (.expr left) with
        | (s1, false) => (s1, false)
        | (s1, true) =>
            let s2 := pushBytecode s1 JUMP_IF_FALSE_NO_POP sp
            let patchLoc := s2.bytecodes.length
            let s3 := pushBytecode s2 0 sp
            let s4 := pushBytecode s3 POP_LAST sp
            match compileF F fuel s4 (.expr right) with
            | (s5, false) => (s5, false)
            | (s5, true) =>
                ({ s5 with bytecodes := s5.bytecodes.set patchLoc (byteOf s5.bytecodes.length) }, true)
      else if op = "||" then
        match compileF F fuel s (.expr left) with
        | (s1, false) => (s1, false)
        | (s1, true) =>
            let s2 := pushBytecode s1 JUMP_IF_FALSE_NO_POP sp
            let patchLoc1 := s2.bytecodes.length
            let s3 := pushBytecode s2 0 sp
            let s4 := pushBytecode s3 JUMP sp
            let patchLoc2 := s4.bytecodes.length
            let s5 := pushBytecode s4 0 sp
            let s6 : VM := { s5 with bytecodes := s5.bytecodes.set patchLoc1 (byteOf s5.bytecodes.length) }
            let s7 := pushBytecode s6 POP_LAST sp
            match compileF F fuel s7 (.expr right) with
            | (s8, false) => (s8, false)
            | (s8, true) =>
                ({ s8 with bytecodes := s8.bytecodes.set patchLoc2 (byteOf s8.bytecodes.length) }, true)
      else
        match compileF F fuel s (.expr left) with
        | (s1, false) => (s1, false)
        | (s1, true) =>
            match compileF F fuel s1 (.expr right) with
            | (s2, false) => (s2, false)
            | (s2, true) =>
                match binOpcodeFor op with
                | some b => (pushBytecode s2 b sp, true)
                | none => (compileError s2 sp ("Unsupported Operand: " ++ op), false)
  | fuel + 1, s, .expr (.prefixE op right sp) =>
      if op = "-" then
        match compileF F fuel s (.expr right) with
        | (s1, false) => (s1, false)
        | (s1, true) => (pushBytecode s1 UNARY_NEG sp, true)
      else if op = "!" then
        match compileF F fuel s (.expr right) with
        | (s1, false) => (s1, false)
        | (s1, true) => (pushBytecode s1 UNARY_NOT sp, true)
      else
        (compileError s sp ("Unsupported Operand: " ++ op), false)
  | fuel + 1, s, .expr (.indexE callee index sp) =>
      match compileF F fuel s (.expr callee) with
      | (s1, false) => (s1, false)
      | (s1, true) =>
          match compileF F fuel s1 (.expr index) with
          | (s2, false) => (s2, false)
          | (s2, true) => (pushBytecode s2 GET sp, true)
  | fuel + 1, s, .expr (.ifE cond body other sp) =>
      match compileF F fuel s (.expr cond) with
      | (s1, false) => (s1, false)
      | (s1, true) =>
          let s2 := pushBytecode s1 JUMP_IF_FALSE sp
          let patchLoc := s2.bytecodes.length
          let s3 := pushBytecode s2 0 sp
          let thenRes : VM × Bool :=
            if body.isEmpty then
              (pushBytecode (pushBytecode s3 LOAD_CONST sp) NULL_CONSTANT sp, true)
            else
              match compileF F fuel (beginScope s3) (.prog body) with
              | (sb, false) => (sb, false)
              | (sb, true) => (stripOrNull (endScope sb) sp, true)
          match thenRes with
          | (s4, false) => (s4, false)
          | (s4, true) =>
              let s5 := pushBytecode s4 JUMP sp
              let patchLoc2 := s5.bytecodes.length
              let s6 := pushBytecode s5 0 sp
              let s7 : VM := { s6 with bytecodes := s6.bytecodes.set patchLoc (byteOf s6.bytecodes.length) }
              if other.isEmpty then
                let s8 := pushBytecode (pushBytecode s7 LOAD_CONST sp) NULL_CONSTANT sp
                ({ s8 with bytecodes := s8.bytecodes.set patchLoc2 (byteOf s8.bytecodes.length) }, true)
              else
                match compileF F fuel (beginScope s7) (.prog other) with
                | (so, false) => (so, false)
                | (so, true) =>
                    let s8 := stripOrNull (endScope so) sp
                    ({ s8 with bytecodes := s8.bytecodes.set patchLoc2 (byteOf s8.bytecodes.length) }, true)
  | fuel + 1, s, .expr (.whileE cond body sp) =>
      let sA : VM := { s with
        breakJumpPatches := [] :: s.breakJumpPatches,
        nextJumpPatches := [] :: s.nextJumpPatches }
      let loopStart := sA.bytecodes.length
      match compileF F fuel sA (.expr cond) with
      | (s1, false) => (s1, false)
      | (s1, true) =>
          let s2 := pushBytecode s1 JUMP_IF_FALSE sp
          let patchLoc := s2.bytecodes.length
          let s3 := pushBytecode s2 0 sp
          match compileF F fuel (beginScope s3) (.prog body) with
          | (s4, false) => (s4, false)
          | (s4, true) =>
              compileWhileFinish (endScope s4) loopStart patchLoc sp
  | fuel + 1, s, .expr (.doE body sp) =>
      match compileF F fuel (beginScope s) (.prog body) with
      | (s1, false) => (s1, false)
      | (s1, true) => (stripOrNull (endScope s1) sp, true)

/-- Mirrors the reset prefix of VM::compile: clear the streams, close
every scope but the global one, recount the surviving locals. -/
def compileReset (s : VM) : VM :=
  let g := (s.localMap.getLast?).getD []
  { s with lines := [], bytecodes := [], localMap := [g], count := g.length }

/-- Mirrors VM::compile: reset, then compile the program. -/
def compileVM (F : FloatOps) (fuel : Nat) (s : VM) (p : List Statement) : VM × Bool :=
  compileF F fuel (compileReset s) (.prog p)

/-- The scan of VM::optimize: at each position, a LOAD_CONST or
LOAD_LOCAL whose operand is followed by POP_LAST is overwritten with
three NOOPs, except close to the end of the stream; otherwise the scan
advances past the instruction and its operands. -/
def optimizeLoop : Nat → List Nat → Nat → List Nat
  | 0, bcs, _ => bcs
  | fuel + 1, bcs, i =>
      if i < bcs.length then
        match bcs.get? i with
        | none => bcs
        | some b =>
            if (b = LOAD_LOCAL ∨ b = LOAD_CONST) ∧ i + 2 < bcs.length - 1 ∧
                bcs.get? (i + 2) = some POP_LAST then
              optimizeLoop fuel (((bcs.set i NOOP).set (i + 1) NOOP).set (i + 2) NOOP) (i + 3)
            else
              optimizeLoop fuel bcs (i + 1 + operands b)
      else bcs

/-- Mirrors VM::optimize. The scan index grows by at least one per
iteration, so fuel length+1 never runs out. -/
def optimizeVM (s : VM) : VM :=
  { s with bytecodes := optimizeLoop (s.bytecodes.length + 1) s.bytecodes 0 }


/-! ### Remaining definitions used by the claims -/

/-- Mirrors the Int arm of apply_operator in
src/glacier_vm/operators.rs, restricted to two Int operands, for the
comparison operators: try_convert of an Int into Int answers SameType, so
each operator takes its SameType branch. The body of each branch is
copied faithfully; note that the source computes i <= other in the arm
of the < operator. none stands for NoSuchOperator. -/
def glacierApplyCmpIntInt (name : String) (i other : Int) : Option Bool :=
  if name = ">" then some (decide (i > other))
  else if name = "<" then some (decide (i ≤ other))
  else if name = ">=" then some (decide (i ≥ other))
  else if name = "<=" then some (decide (i ≤ other))
  else none

/-- Modelled from the spec: the mathematical floored modulo (result takes
the sign of the divisor), the form the specification table writes as
(l%r+r)%r. For a positive divisor it is the Euclidean remainder, for a
negative divisor its negation mirrored. -/
def flooredMod (l r : Int) : Int :=
  if 0 ≤ r then l % r else -((-l) % (-r))

/-- Specification-side semantics of both conditional jumps, following the
specification sentence that the two forms have the same behavior: read
the target, pop the operand unconditionally, jump when it is not truthy.
To be compared against the dispatch of JUMP_IF_FALSE and
JUMP_IF_FALSE_NO_POP. -/
def jumpIfFalseSpec (F : FloatOps) (s : VM) : Step :=
  match readOperand s with
  | none => .crash
  | some (addr, s1) =>
      match topS s1.stack with
      | none => .crash
      | some h =>
          let s2 : VM := { s1 with stack := popS s1.stack }
          match derefVM s2 h with
          | none => .crash
          | some v => .next (if isTruthy F v then s2 else { s2 with pc := addr })

/-- Projects the state out of a halt step. -/
def stepHaltState : Step → Option VM
  | .halt s => some s
  | _ => none

/-- Projects the state out of a next step. -/
def stepNextState : Step → Option VM
  | .next s => some s
  | _ => none

/-- Checks that every stack handle dereferences to a non-array value. -/
def scalarOnlyStack (s : VM) : Bool :=
  s.stack.all fun h =>
    match derefVM s h with
    | some (.VArray _) => false
    | some _ => true
    | none => false

/-- Value dereferenced at the top of the stack (the right operand of a
binary opcode). -/
def topVal (s : VM) : Option Value :=
  (topS s.stack).bind (derefVM s)

/-- Value dereferenced just below the top (the left operand of a binary
opcode). -/
def top2Val (s : VM) : Option Value :=
  (topS (popS s.stack)).bind (derefVM s)

/-- Decidable safety precondition on a state: the current opcode has its
immediate operands inside the stream, a span-table entry exists at the pc
every fault of this opcode would report from, the stack respects its
capacity and holds enough operands, all of which dereference to scalars,
indices are in range, and the two division opcodes are not facing the one
operand pair (minI, -1) whose remainder panics in Rust. Under this
predicate the dispatch neither panics nor meets UB. -/
def stepSafeB (s : VM) : Bool :=
  match s.bytecodes.get? s.pc with
  | none => false
  | some bc =>
      decide (s.pc + 1 + operands bc < s.lines.length) &&
      decide (s.stack.length ≤ STACK_SIZE) &&
      scalarOnlyStack s &&
      (match s.bytecodes.get? (s.pc + 1) with
       | none => decide (operands bc = 0)
       | some _ => true) &&
      (if bc = REPLACE then
        match s.bytecodes.get? (s.pc + 1) with
        | none => false
        | some o =>
            decide (1 ≤ s.stack.length) && decide (o + 1 ≤ STACK_SIZE) &&
            decide (NULL_CONSTANT < s.constants.length)
      else if bc = SET_IN_PLACE then decide (2 ≤ s.stack.length)
      else if bc = LOAD_CONST then
        match s.bytecodes.get? (s.pc + 1) with
        | none => false
        | some o => decide (o < s.constants.length)
      else if bc = LOAD_LOCAL then
        match s.bytecodes.get? (s.pc + 1) with
        | none => false
        | some o => decide (o < s.stack.length) && decide (s.stack.length < STACK_SIZE)
      else if bc = MAKE_ARRAY then
        match s.bytecodes.get? (s.pc + 1) with
        | none => false
        | some o => decide (o ≤ s.stack.length) && decide (s.stack.length - o < STACK_SIZE)
      else if bc = DEBUG_PRINT then decide (1 ≤ s.stack.length)
      else if bc = JUMP_IF_FALSE ∨ bc = JUMP_IF_FALSE_NO_POP then decide (1 ≤ s.stack.length)
      else if bc = GET then decide (2 ≤ s.stack.length)
      else if bc = UNARY_NEG ∨ bc = UNARY_NOT then decide (1 ≤ s.stack.length)
      else if bc = BINARY_DIV ∨ bc = BINARY_MOD then
        decide (2 ≤ s.stack.length) &&
        !(decide (top2Val s = some (.VInt I64.minI)) && decide (topVal s = some (.VInt (-1))))
      else if bc = BINARY_ADD ∨ bc = BINARY_SUB ∨ bc = BINARY_MUL ∨ bc = BINARY_EQ ∨
              bc = BINARY_NE ∨ bc = BINARY_LT ∨ bc = BINARY_LE ∨ bc = BINARY_GT ∨
              bc = BINARY_GE then decide (2 ≤ s.stack.length)
      else true)

/-- Shared span used by the concrete inputs. -/
def spanA : AstSpan := ⟨0, 1⟩

/-- A second, distinct span. -/
def spanB : AstSpan := ⟨5, 6⟩

/-- Concrete input for the opcode-safety claim: a REPLACE instruction
facing an empty evaluation stack (the dispatch unwraps the pop). -/
def cexReplaceEmpty : VM :=
  { defaultVM with bytecodes := [REPLACE, 0], lines := [spanA, spanA] }

/-- Concrete input for the fault-location claim: BINARY_ADD over two
booleans (an unsupported pair) sitting at offset 0, with a differently
spanned unit following it. -/
def cexAddBools : VM :=
  { defaultVM with
    bytecodes := [BINARY_ADD, NOOP],
    lines := [spanA, spanB],
    heap := [.VBool false, .VBool false],
    stack := [.heapH 0, .heapH 1] }

/-- Concrete input for the constant-pool claim: LOAD_CONST true; REPLACE
into slot 1 (padding slot 0 with the address of the pool null);
LOAD_LOCAL 0 (the pool pointer); LOAD_CONST true; SET_IN_PLACE, which
writes through the pool pointer. -/
def cexPoolWrite : VM :=
  { defaultVM with
    bytecodes := [LOAD_CONST, 1, REPLACE, 1, LOAD_LOCAL, 0, LOAD_CONST, 1, SET_IN_PLACE],
    lines := List.replicate 9 spanA }

/-- Program while true { break } used by the jump-patching claim. -/
def whileBreakProg : List Statement :=
  [ .exprStmt (.whileE (.boolE true spanA) [ .breakS spanB ] spanA) spanA ]

/-- The REPL program 1; true + true; used by the peephole claim: the
first statement is a LOAD_CONST/POP_LAST pair the optimizer rewrites,
the second faults at runtime. -/
def peepholeProg : List Statement :=
  [ .exprStmt (.intE "1" spanA) spanA,
    .exprStmt (.infixE (.boolE true spanA) "+" (.boolE true spanA) spanA) spanB ]

/-- A VM in REPL mode, as the REPL driver configures it. -/
def replVM : VM := { defaultVM with replMode := true }

/-- A program whose loop allocates a fresh cell per iteration with no
opcode in the stream ever invoking the collector: i = 600000; while i
{ i = i - 1 }. Allocations since the last (never-run) sweep exceed
GC_FORCE_COLLECT = 2^19. -/
def leakProg : List Statement :=
  [ .exprStmt (.setVar "i" (.intE "600000" spanA) spanA) spanA,
    .exprStmt (.whileE (.getVar "i" spanA)
      [ .exprStmt (.setVar "i" (.infixE (.getVar "i" spanA) "-" (.intE "1" spanA) spanA) spanA) spanA ]
      spanA) spanA ]

/-- The allocation threshold GC_FORCE_COLLECT of src/vm/memory.rs. -/
def GC_FORCE_COLLECT : Nat := 2 ^ 19


/-- Constant-pool fact of one dispatch: the pool is untouched unless the
opcode is SET_IN_PLACE and the pointer operand (second from the top) is a
handle into the pool (a REPLACE padding handle). -/
def poolFact (s s1 : VM) (bc : Nat) : Prop :=
  s1.constants = s.constants ∨
    (bc = SET_IN_PLACE ∧ ∃ t i v, s.stack = t ++ [Handle.constH i, v])

/-- Fault fact of one dispatch that returned early: the error slot is
filled with a runtime error, pc sits one unit past the opcode and its
operands (relative to the already-advanced dispatch entry, that is at
entry pc plus the operand count), and the span recorded is the table
entry at that advanced pc. -/
def haltFact (s s1 : VM) (bc : Nat) : Prop :=
  s1.error.isSome = true ∧ s1.pc = s.pc + operands bc ∧
  ∃ e, s1.error = some e ∧ e.atRuntime = true ∧ s.lines.get? s1.pc = some e.span

/-- Invariant of one opcode dispatch from the (already advanced) state s:
the arena never shrinks, the pool fact and, for an early return, the
fault fact. -/
def stepOK (s : VM) (bc : Nat) : Step → Prop
  | .crash => True
  | .next s1 => s.heap.length ≤ s1.heap.length ∧ poolFact s s1 bc
  | .halt s1 => s.heap.length ≤ s1.heap.length ∧ poolFact s s1 bc ∧ haltFact s s1 bc

/-- Concrete input used by witnesses: UNARY_NEG over the Int 5. -/
def cexNegState : VM :=
  { defaultVM with
    bytecodes := [UNARY_NEG], lines := [spanA], heap := [.VInt 5], stack := [.heapH 0] }

/-- Concrete input used by witnesses: BINARY_MOD over 7 and 0. -/
def cexModZero : VM :=
  { defaultVM with
    bytecodes := [BINARY_MOD, NOOP], lines := [spanA, spanB],
    heap := [.VInt 7, .VInt 0], stack := [.heapH 0, .heapH 1] }

/-- Concrete input used by witnesses: BINARY_ADD over two booleans (an
unsupported pair that faults without crashing). -/
def cexSafeAdd : VM :=
  { defaultVM with
    bytecodes := [BINARY_ADD, NOOP], lines := [spanA, spanB],
    heap := [.VBool false, .VBool false], stack := [.heapH 0, .heapH 1] }

/-- Concrete input used by witnesses: LOAD_CONST of the null slot. -/
def cexLoadConst : VM :=
  { defaultVM with bytecodes := [LOAD_CONST, 2], lines := [spanA, spanA] }

/-- The successor state of cexLoadConst after one dispatch. -/
def cexLoadConstNext : VM :=
  { cexLoadConst with
    pc := cexLoadConst.pc + 2,
    heap := cexLoadConst.heap ++ [Value.VNull],
    stack := pushS cexLoadConst.stack (.heapH cexLoadConst.heap.length) }

/-- Concrete input used by witnesses: JUMP_IF_FALSE over a false value. -/
def cexJif : VM :=
  { defaultVM with
    bytecodes := [JUMP_IF_FALSE, 0], lines := [spanA, spanA],
    heap := [.VBool false], stack := [.heapH 0] }

/-- The state in which the BINARY_ADD fault on cexAddBools halts: pc has
moved to the following unit and the span recorded is that unit\x27s. -/
def cexAddBoolsHalt : VM :=
  { cexAddBools with
    pc := 1, stack := [],
    error := some ⟨true, spanB, "Unsupported Binary operation: bool + bool"⟩ }

/-! ### Helper lemmas -/

theorem wrap_inRange (n : Int) : I64.inRange (I64.wrap n) := by
  unfold I64.inRange I64.wrap I64.minI I64.maxI
  constructor <;> omega

theorem wrap_emod (n : Int) : I64.wrap n % 2 ^ 64 = n % 2 ^ 64 := by
  unfold I64.wrap
  omega

theorem wrap_eq_self (n : Int) (h : I64.inRange n) : I64.wrap n = n := by
  unfold I64.inRange I64.minI I64.maxI at h
  unfold I64.wrap
  omega

theorem topS_concat (t : List Handle) (a : Handle) : topS (t ++ [a]) = some a := by
  unfold topS
  exact List.getLast?_concat t

theorem popS_concat (t : List Handle) (a : Handle) : popS (t ++ [a]) = t := by
  unfold popS
  exact List.dropLast_concat

theorem topS_concat2 (t : List Handle) (a b : Handle) : topS (t ++ [a, b]) = some b := by
  have : t ++ [a, b] = (t ++ [a]) ++ [b] := by simp
  rw [this, topS_concat]

theorem popS_concat2 (t : List Handle) (a b : Handle) : popS (t ++ [a, b]) = t ++ [a] := by
  have : t ++ [a, b] = (t ++ [a]) ++ [b] := by simp
  rw [this, popS_concat]

theorem neg_tmod_eq (a b : Int) : (-a).tmod b = -(a.tmod b) := by
  simp only [Int.tmod_def, Int.neg_tdiv]
  ring

theorem tmod_neg_modulus (l r : Int) : l.tmod r = l.tmod (-r) :=
  (Int.tmod_neg l r).symm

theorem tmod_lt_abs (l r : Int) (h : r ≠ 0) : -(|r|) < l.tmod r ∧ l.tmod r < |r| := by
  have key : ∀ x : Int, 0 ≤ x → 0 ≤ x.tmod r ∧ x.tmod r < |r| := by
    intro x hx
    refine ⟨Int.tmod_nonneg r hx, ?_⟩
    rcases lt_or_gt_of_ne h with hr | hr
    · rw [tmod_neg_modulus, abs_of_neg hr]
      exact Int.tmod_lt_of_pos x (by omega)
    · rw [abs_of_pos hr]
      exact Int.tmod_lt_of_pos x hr
  rcases le_or_lt 0 l with hl | hl
  · have := key l hl
    have habs : 0 < |r| := abs_pos.mpr h
    omega
  · have h1 : l.tmod r = -((-l).tmod r) := by
      rw [← neg_tmod_eq, neg_neg]
    have := key (-l) (by omega)
    omega

theorem tmod_shift_eq_flooredMod (l r : Int) (h : r ≠ 0) :
    (l.tmod r + r).tmod r = flooredMod l r := by
  have hb := tmod_lt_abs l r h
  rcases lt_or_gt_of_ne h with hr | hr
  · -- negative divisor
    have habs : |r| = -r := abs_of_neg hr
    have hv : l.tmod r + r < 0 := by omega
    have h1 : (l.tmod r + r).tmod r = -((-(l.tmod r + r)).tmod r) := by
      rw [← neg_tmod_eq, neg_neg]
    have h2 : (-(l.tmod r + r)).tmod r = (-(l.tmod r + r)).tmod (-r) :=
      tmod_neg_modulus _ r
    have h3 : (-(l.tmod r + r)).tmod (-r) = (-(l.tmod r + r)) % (-r) :=
      Int.tmod_eq_emod (by omega) (by omega)
    have h4 : -(l.tmod r + r) = -l + (-r) * (1 - l.tdiv r) := by
      rw [Int.tmod_def]
      ring
    have h5 : (-l + (-r) * (1 - l.tdiv r)) % (-r) = (-l) % (-r) :=
      Int.add_mul_emod_self_left (-l) (-r) (1 - l.tdiv r)
    rw [h1, h2, h3, h4, h5]
    unfold flooredMod
    rw [if_neg (by omega)]
  · -- positive divisor
    have habs : |r| = r := abs_of_pos hr
    have hv : (0 : Int) ≤ l.tmod r + r := by omega
    rw [Int.tmod_eq_emod hv (by omega)]
    have h4 : l.tmod r + r = l + r * (1 - l.tdiv r) := by
      rw [Int.tmod_def]
      ring
    rw [h4, Int.add_mul_emod_self_left]
    unfold flooredMod
    rw [if_pos (by omega)]

theorem flooredMod_sign (l r : Int) (h : r ≠ 0) :
    (0 < r → 0 ≤ flooredMod l r ∧ flooredMod l r < r) ∧
    (r < 0 → r < flooredMod l r ∧ flooredMod l r ≤ 0) := by
  constructor
  · intro hr
    unfold flooredMod
    rw [if_pos (by omega)]
    exact ⟨Int.emod_nonneg l h, Int.emod_lt_of_pos l hr⟩
  · intro hr
    unfold flooredMod
    rw [if_neg (by omega)]
    have h1 : 0 ≤ (-l) % (-r) := Int.emod_nonneg (-l) (by omega)
    have h2 : (-l) % (-r) < -r := Int.emod_lt_of_pos (-l) (by omega)
    omega

/-! ### Claim theorems -/

/-- C6: on two Int operands the bytecode VM computes a strict < through
binary_lt and a non-strict <= through binary_le (so at l = r they
differ), but the legacy operator module of src/glacier_vm/operators.rs
computes i <= other inside its < arm: at the failing input 1 < 1 it
answers Boolean(true) where the claim (and binary_lt) give false. -/
theorem c6_lt_strict_le_nonstrict :
    (∀ (F : FloatOps) (κ σ : List Value) (l r : Int),
      binaryLt F κ σ (.VInt l) (.VInt r) =
        .ok (σ ++ [.VBool (decide (l < r))]) (.heapH σ.length) ∧
      binaryLe F κ σ (.VInt l) (.VInt r) =
        .ok (σ ++ [.VBool (decide (l ≤ r))]) (.heapH σ.length)) ∧
    glacierApplyCmpIntInt "<" 1 1 = some true ∧
    glacierApplyCmpIntInt "<=" 1 1 = some true ∧
    binaryLt floatOps0 [] [] (.VInt 1) (.VInt 1) = .ok [.VBool false] (.heapH 0) ∧
    binaryLe floatOps0 [] [] (.VInt 1) (.VInt 1) = .ok [.VBool true] (.heapH 0) := by
  refine ⟨fun F κ σ l r => ⟨rfl, rfl⟩, ?_, ?_, ?_, ?_⟩ <;> decide

/-- C7: the three binary arithmetic opcodes on Int times Int wrap modulo
2^64 (the release-build Rust semantics the dispatch relies on), while
UNARY_NEG saturates: the minimum i64 negates to the maximum and every
other Int negates exactly; the dispatch allocates the saturated result
and pushes it. -/
theorem c7_arith_wraps_neg_saturates :
    (∀ (F : FloatOps) (κ σ : List Value) (l r : Int),
      binaryAdd F κ σ (.VInt l) (.VInt r) =
        .ok (σ ++ [.VInt (I64.wrap (l + r))]) (.heapH σ.length) ∧
      binarySub F κ σ (.VInt l) (.VInt r) =
        .ok (σ ++ [.VInt (I64.wrap (l - r))]) (.heapH σ.length) ∧
      binaryMul F κ σ (.VInt l) (.VInt r) =
        .ok (σ ++ [.VInt (I64.wrap (l * r))]) (.heapH σ.length)) ∧
    (∀ n : Int, I64.wrap n % 2 ^ 64 = n % 2 ^ 64 ∧ I64.inRange (I64.wrap n)) ∧
    I64.satNeg I64.minI = I64.maxI ∧
    (∀ i : Int, i ≠ I64.minI → I64.satNeg i = -i) ∧
    (∀ (F : FloatOps) (s : VM) (t : List Handle) (a : Handle) (i : Int),
      s.bytecodes.get? s.pc = some UNARY_NEG →
      s.stack = t ++ [a] →
      derefVM s a = some (.VInt i) →
      s.stack.length ≤ STACK_SIZE →
      execStep F s =
        .next { s with
                  pc := s.pc + 1,
                  stack := t ++ [.heapH s.heap.length],
                  heap := s.heap ++ [.VInt (I64.satNeg i)] }) := by
  refine ⟨fun F κ σ l r => ⟨rfl, rfl, rfl⟩, fun n => ⟨wrap_emod n, wrap_inRange n⟩, ?_, ?_, ?_⟩
  · decide
  · intro i hi
    unfold I64.satNeg
    rw [if_neg hi]
  · intro F s t a i hbc hstack hderef hlen
    have hlen2 : ¬ t.length ≥ STACK_SIZE := by
      rw [hstack] at hlen
      simp at hlen
      omega
    unfold derefVM at hderef
    simp only [execStep, hbc, UNARY_NEG, execOp, unaryNegStep, hstack, topS_concat,
      popS_concat, derefVM, hderef, allocV, pushChecked, pushS, hlen2, if_false, ite_false]

/-- C8: division and modulo by an Int zero fail with the ZeroDivision
error and push nothing; on a nonzero divisor (away from the one pair
(minI, -1) whose Rust remainder panics) BINARY_MOD computes the literal
source expression (l % r + r) % r with truncated remainders and a
wrapping intermediate sum, which coincides with the floored modulo
(result signed like the divisor) exactly when the intermediate sum
l.tmod r + r stays inside i64; the wrap makes the published floored-sign
property fail for divisors near the top of the range. -/
theorem c8_mod_div_zero_and_floored :
    (∀ (F : FloatOps) (κ σ : List Value) (l : Int),
      binaryMod F κ σ (.VInt l) (.VInt 0) = .err s!"Modulo By Zero: {l} % 0" ∧
      binaryDiv F κ σ (.VInt l) (.VInt 0) = .err s!"Division By Zero: {l} / 0") ∧
    (∀ (F : FloatOps) (κ σ : List Value) (l r : Int), r ≠ 0 → ¬(l = I64.minI ∧ r = -1) →
      binaryMod F κ σ (.VInt l) (.VInt r) =
        .ok (σ ++ [.VInt ((I64.wrap (l.tmod r + r)).tmod r)]) (.heapH σ.length)) ∧
    (∀ l r : Int, r ≠ 0 → I64.inRange (l.tmod r + r) →
      (I64.wrap (l.tmod r + r)).tmod r = flooredMod l r) ∧
    (∀ l r : Int, r ≠ 0 →
      (0 < r → 0 ≤ flooredMod l r ∧ flooredMod l r < r) ∧
      (r < 0 → r < flooredMod l r ∧ flooredMod l r ≤ 0)) ∧
    (∀ (F : FloatOps) (s : VM) (t : List Handle) (h1 h2 : Handle) (l : Int) (sp : AstSpan),
      s.bytecodes.get? s.pc = some BINARY_MOD →
      s.stack = t ++ [h1, h2] →
      derefVM s h1 = some (.VInt l) →
      derefVM s h2 = some (.VInt 0) →
      s.lines.get? (s.pc + 1) = some sp →
      execStep F s =
        .halt { s with
                  pc := s.pc + 1,
                  stack := t,
                  error := some ⟨true, sp, s!"Modulo By Zero: {l} % 0"⟩ }) := by
  refine ⟨fun F κ σ l => ⟨rfl, rfl⟩, ?_, ?_, ?_, ?_⟩
  · intro F κ σ l r hr hm
    simp only [binaryMod]
    rw [if_neg hr, if_neg hm]
    rfl
  · intro l r hr hin
    rw [wrap_eq_self _ hin]
    exact tmod_shift_eq_flooredMod l r hr
  · intro l r hr
    exact flooredMod_sign l r hr
  · intro F s t h1 h2 l sp hbc hstack hd1 hd2 hsp
    unfold derefVM at hd1 hd2
    simp only [execStep, hbc, BINARY_MOD, execOp, binStep, hstack, topS_concat2, popS_concat2,
      topS_concat, popS_concat, derefVM, hd1, hd2, binaryMod, if_pos, runtimeError, hsp]


/-! ### Dispatch invariants (arena monotone, pool preserved, fault shape) -/

theorem pushChecked_some_eq (s : VM) (h : Handle) (s1 : VM)
    (hp : pushChecked s h = some s1) : s1 = { s with stack := pushS s.stack h } := by
  unfold pushChecked at hp
  split at hp
  · simp at hp
  · exact (Option.some.inj hp).symm

theorem topS_popS_eq (st : List Handle) (a : Handle) (h : topS st = some a) :
    st = popS st ++ [a] := by
  unfold topS at h
  unfold popS
  rcases st.eq_nil_or_concat with rfl | ⟨t, b, rfl⟩
  · simp at h
  · rw [List.concat_eq_append] at h ⊢
    rw [List.getLast?_concat] at h
    obtain rfl := Option.some.inj h
    rw [List.dropLast_concat]

theorem stepOK_runtimeError (s s2 : VM) (bc : Nat) (msg : String)
    (hlen : s.heap.length ≤ s2.heap.length)
    (hc : s2.constants = s.constants)
    (hpc : s2.pc = s.pc + operands bc)
    (hlines : s2.lines = s.lines) :
    stepOK s bc (runtimeError s2 msg) := by
  unfold runtimeError
  split
  · trivial
  · next sp hsp =>
      refine ⟨hlen, Or.inl hc, rfl, ?_, ⟨true, sp, msg⟩, rfl, rfl, ?_⟩
      · show s2.pc = s.pc + operands bc
        exact hpc
      · show s.lines.get? s2.pc = some sp
        rw [← hlines]
        exact hsp

theorem shallowCopyIn_mono (κ σ : List Value) (v : Handle) (σ1 : List Value) (h1 : Handle)
    (h : shallowCopyIn κ σ v = some (σ1, h1)) : σ.length ≤ σ1.length := by
  unfold shallowCopyIn at h
  split at h
  · simp at h
  · simp only [Option.some.injEq, Prod.mk.injEq] at h
    obtain ⟨h2, _⟩ := h
    subst h2
    exact le_refl _
  · simp only [allocV, Option.some.injEq, Prod.mk.injEq] at h
    obtain ⟨h2, _⟩ := h
    rw [← h2]
    simp

theorem getElement_mono (κ σ : List Value) (c : Value) (i : Handle) (σ1 : List Value) (h1 : Handle)
    (h : getElement κ σ c i = .ok σ1 h1) : σ.length ≤ σ1.length := by
  unfold getElement at h
  split at h
  · split at h
    · simp at h
    · split at h
      · simp at h
      · split at h
        · cases h
          exact le_refl _
        · simp at h
    · simp at h
  · split at h
    · simp at h
    · split at h
      · simp at h
      · split at h
        · simp only [allocV] at h
          cases h
          simp
        · simp at h
    · simp at h
  · simp at h


theorem readOperand_some (s : VM) (a : Nat) (s1 : VM) (h : readOperand s = some (a, s1)) :
    s1 = { s with pc := s.pc + 1 } ∧ s.bytecodes.get? s.pc = some a := by
  unfold readOperand at h
  split at h
  · simp at h
  · next b hb =>
      simp only [Option.some.injEq, Prod.mk.injEq] at h
      obtain ⟨h1, h2⟩ := h
      subst h1
      exact ⟨h2.symm, hb⟩

theorem popLastStep_ok (s : VM) (bc : Nat) : stepOK s bc (popLastStep s) := by
  unfold popLastStep
  dsimp only
  split
  · exact ⟨le_refl _, Or.inl rfl⟩
  · exact ⟨le_refl _, Or.inl rfl⟩

theorem replaceStep_ok (s : VM) (bc : Nat) : stepOK s bc (replaceStep s) := by
  unfold replaceStep
  dsimp only
  split
  · trivial
  · next idx s1 hro =>
      obtain ⟨rfl, -⟩ := readOperand_some s idx s1 hro
      split
      · trivial
      · split
        · split
          · trivial
          · split
            · trivial
            · split
              · trivial
              · next σ1 h1 hsc =>
                  exact ⟨shallowCopyIn_mono _ _ _ _ _ hsc, Or.inl rfl⟩
        · split
          · trivial
          · next σ1 h1 hsc =>
              exact ⟨shallowCopyIn_mono _ _ _ _ _ hsc, Or.inl rfl⟩

theorem setInPlaceStep_ok (s : VM) : stepOK s SET_IN_PLACE (setInPlaceStep s) := by
  unfold setInPlaceStep
  dsimp only
  split
  · trivial
  · next v hv =>
      split
      · trivial
      · next p hp =>
          split
          · trivial
          · split
            · trivial
            · split
              · trivial
              · next s3 hpush =>
                  rw [pushChecked_some_eq _ _ _ hpush]
                  refine ⟨?_, ?_⟩
                  · show s.heap.length ≤ (writeVM _ p _).heap.length
                    unfold writeVM
                    split <;> simp
                  · cases p with
                    | heapH i => exact Or.inl rfl
                    | constH i =>
                        refine Or.inr ⟨rfl, popS (popS s.stack), i, v, ?_⟩
                        have h2 := topS_popS_eq _ _ hv
                        have h3 := topS_popS_eq _ _ hp
                        calc s.stack = popS s.stack ++ [v] := h2
                          _ = (popS (popS s.stack) ++ [Handle.constH i]) ++ [v] := by
                              rw [← h3]
                          _ = popS (popS s.stack) ++ [Handle.constH i, v] := by simp

theorem loadConstStep_ok (s : VM) : stepOK s LOAD_CONST (loadConstStep s) := by
  unfold loadConstStep
  dsimp only [allocV]
  split
  · trivial
  · next idx s1 hro =>
      obtain ⟨rfl, -⟩ := readOperand_some s idx s1 hro
      split
      · trivial
      · next c hc =>
          split
          · apply stepOK_runtimeError
            · show s.heap.length ≤ (s.heap ++ [c]).length
              simp
            · rfl
            · show s.pc + 1 = s.pc + operands LOAD_CONST
              rfl
            · rfl
          · next s3 hpush =>
              rw [pushChecked_some_eq _ _ _ hpush]
              refine ⟨?_, Or.inl rfl⟩
              show s.heap.length ≤ (s.heap ++ [c]).length
              simp

theorem loadLocalStep_ok (s : VM) (bc : Nat) : stepOK s bc (loadLocalStep s) := by
  unfold loadLocalStep
  split
  · trivial
  · next idx s1 hro =>
      obtain ⟨rfl, -⟩ := readOperand_some s idx s1 hro
      split
      · trivial
      · split
        · trivial
        · next s2 hpush =>
            rw [pushChecked_some_eq _ _ _ hpush]
            exact ⟨le_refl _, Or.inl rfl⟩

theorem makeArrayStep_ok (s : VM) (bc : Nat) : stepOK s bc (makeArrayStep s) := by
  unfold makeArrayStep
  dsimp only [allocV]
  split
  · trivial
  · next n s1 hro =>
      obtain ⟨rfl, -⟩ := readOperand_some s n s1 hro
      split
      · trivial
      · next elems rest hpop =>
          split
          · trivial
          · next s2 hpush =>
              rw [pushChecked_some_eq _ _ _ hpush]
              refine ⟨?_, Or.inl rfl⟩
              show s.heap.length ≤ (s.heap ++ [Value.VArray elems]).length
              simp

theorem debugPrintStep_ok (F : FloatOps) (s : VM) (bc : Nat) :
    stepOK s bc (debugPrintStep F s) := by
  unfold debugPrintStep
  dsimp only
  split
  · trivial
  · split
    · trivial
    · split
      · trivial
      · exact ⟨le_refl _, Or.inl rfl⟩

theorem jumpIfFalseStep_ok (F : FloatOps) (s : VM) (bc : Nat) :
    stepOK s bc (jumpIfFalseStep F s) := by
  unfold jumpIfFalseStep
  dsimp only
  split
  · trivial
  · next addr s1 hro =>
      obtain ⟨rfl, -⟩ := readOperand_some s addr s1 hro
      split
      · trivial
      · split
        · trivial
        · split
          · exact ⟨le_refl _, Or.inl rfl⟩
          · exact ⟨le_refl _, Or.inl rfl⟩

theorem jumpIfFalseNoPopStep_ok (F : FloatOps) (s : VM) (bc : Nat) :
    stepOK s bc (jumpIfFalseNoPopStep F s) := by
  unfold jumpIfFalseNoPopStep
  dsimp only
  split
  · trivial
  · next addr s1 hro =>
      obtain ⟨rfl, -⟩ := readOperand_some s addr s1 hro
      split
      · trivial
      · split
        · trivial
        · split
          · exact ⟨le_refl _, Or.inl rfl⟩
          · exact ⟨le_refl _, Or.inl rfl⟩

theorem jumpStep_ok (s : VM) (bc : Nat) : stepOK s bc (jumpStep s) := by
  unfold jumpStep
  split
  · trivial
  · next addr s1 hro =>
      obtain ⟨rfl, -⟩ := readOperand_some s addr s1 hro
      exact ⟨le_refl _, Or.inl rfl⟩

theorem getStep_ok (s : VM) : stepOK s GET (getStep s) := by
  unfold getStep
  dsimp only
  split
  · trivial
  · next ih hih =>
      split
      · trivial
      · next ch hch =>
          split
          · trivial
          · next callee hc =>
              split
              · next σ1 h1 hget =>
                  split
                  · trivial
                  · next s3 hpush =>
                      rw [pushChecked_some_eq _ _ _ hpush]
                      exact ⟨getElement_mono _ _ _ _ _ _ hget, Or.inl rfl⟩
              · next e hget =>
                  apply stepOK_runtimeError
                  · exact le_refl _
                  · rfl
                  · show s.pc = s.pc + operands GET
                    rfl
                  · rfl
              · trivial
              · trivial

theorem unaryNegStep_ok (s : VM) : stepOK s UNARY_NEG (unaryNegStep s) := by
  unfold unaryNegStep
  dsimp only [allocV]
  split
  · trivial
  · next h hh =>
      split
      · trivial
      · apply stepOK_runtimeError
        · exact le_refl _
        · rfl
        · show s.pc = s.pc + operands UNARY_NEG
          rfl
        · rfl
      · next i hi =>
          split
          · trivial
          · next s2 hpush =>
              rw [pushChecked_some_eq _ _ _ hpush]
              refine ⟨?_, Or.inl rfl⟩
              show s.heap.length ≤ (s.heap ++ [Value.VInt (I64.satNeg i)]).length
              simp
      · next v _ _ _ =>
          apply stepOK_runtimeError
          · exact le_refl _
          · rfl
          · show s.pc = s.pc + operands UNARY_NEG
            rfl
          · rfl

theorem unaryNotStep_ok (F : FloatOps) (s : VM) (bc : Nat) :
    stepOK s bc (unaryNotStep F s) := by
  unfold unaryNotStep
  dsimp only [allocV]
  split
  · trivial
  · split
    · trivial
    · next v hv =>
        split
        · trivial
        · next s2 hpush =>
            rw [pushChecked_some_eq _ _ _ hpush]
            refine ⟨?_, Or.inl rfl⟩
            show s.heap.length ≤ (s.heap ++ [Value.VBool (!(isTruthy F v))]).length
            simp

theorem binStep_ok (F : FloatOps) (s : VM) (bc : Nat)
    (op : FloatOps → List Value → List Value → Value → Value → BinRes) (sym : String)
    (hops : operands bc = 0)
    (hmono : ∀ κ σ l r σ1 h1, op F κ σ l r = .ok σ1 h1 → σ.length ≤ σ1.length) :
    stepOK s bc (binStep F s op sym) := by
  unfold binStep
  dsimp only
  split
  · trivial
  · next rh hrh =>
      split
      · trivial
      · next lh hlh =>
          split
          · next r l hr hl =>
              split
              · next σ1 h1 hop =>
                  split
                  · trivial
                  · next s3 hpush =>
                      rw [pushChecked_some_eq _ _ _ hpush]
                      exact ⟨hmono _ _ _ _ _ _ hop, Or.inl rfl⟩
              · next e hop =>
                  apply stepOK_runtimeError
                  · exact le_refl _
                  · rfl
                  · show s.pc = s.pc + operands bc
                    rw [hops]
                    omega
                  · rfl
              · apply stepOK_runtimeError
                · exact le_refl _
                · rfl
                · show s.pc = s.pc + operands bc
                  rw [hops]
                  omega
                · rfl
              · trivial
          · trivial

theorem eqStep_ok (F : FloatOps) (s : VM) (bc : Nat) (neg : Bool) :
    stepOK s bc (eqStep F s neg) := by
  unfold eqStep
  dsimp only [allocV]
  split
  · trivial
  · next rh hrh =>
      split
      · trivial
      · next lh hlh =>
          split
          · next r l hr hl =>
              split
              · trivial
              · next b hb =>
                  split
                  · trivial
                  · next s3 hpush =>
                      rw [pushChecked_some_eq _ _ _ hpush]
                      refine ⟨?_, Or.inl rfl⟩
                      show s.heap.length ≤ (s.heap ++ [Value.VBool (if neg then !b else b)]).length
                      simp
          · trivial


theorem shallowCopyList_mono (κ : List Value) (hs : List Handle) :
    ∀ (σ σ1 : List Value) (l1 : List Handle),
      shallowCopyList κ σ hs = some (σ1, l1) → σ.length ≤ σ1.length := by
  induction hs with
  | nil =>
      intro σ σ1 l1 h
      unfold shallowCopyList at h
      simp only [Option.some.injEq, Prod.mk.injEq] at h
      obtain ⟨h1, -⟩ := h
      rw [← h1]
  | cons hd tl ih =>
      intro σ σ1 l1 h
      unfold shallowCopyList at h
      split at h
      · simp at h
      · next σa ha hsc =>
          split at h
          · simp at h
          · next σb tb hrest =>
              simp only [Option.some.injEq, Prod.mk.injEq] at h
              obtain ⟨h1, -⟩ := h
              calc σ.length ≤ σa.length := shallowCopyIn_mono _ _ _ _ _ hsc
                _ ≤ σb.length := ih _ _ _ hrest
                _ = σ1.length := by rw [h1]

theorem shallowRepeat_mono (κ : List Value) (a : List Handle) :
    ∀ (n : Nat) (σ σ1 : List Value) (l1 : List Handle),
      shallowRepeat κ a σ n = some (σ1, l1) → σ.length ≤ σ1.length := by
  intro n
  induction n with
  | zero =>
      intro σ σ1 l1 h
      unfold shallowRepeat at h
      simp only [Option.some.injEq, Prod.mk.injEq] at h
      obtain ⟨h1, -⟩ := h
      rw [← h1]
  | succ n ih =>
      intro σ σ1 l1 h
      unfold shallowRepeat at h
      split at h
      · simp at h
      · next σa la hcl =>
          split at h
          · simp at h
          · next σb lb hrep =>
              simp only [Option.some.injEq, Prod.mk.injEq] at h
              obtain ⟨h1, -⟩ := h
              calc σ.length ≤ σa.length := shallowCopyList_mono _ _ _ _ _ hcl
                _ ≤ σb.length := ih _ _ _ hrep
                _ = σ1.length := by rw [h1]

theorem binaryAdd_mono (F : FloatOps) :
    ∀ (κ σ : List Value) (l r : Value) (σ1 : List Value) (h1 : Handle),
      binaryAdd F κ σ l r = .ok σ1 h1 → σ.length ≤ σ1.length := by
  intro κ σ l r σ1 h1 h
  unfold binaryAdd allocV at h
  split at h
  all_goals first
    | (injection h with h1 h2
       subst h1
       simp)
    | injection h

theorem binarySub_mono (F : FloatOps) :
    ∀ (κ σ : List Value) (l r : Value) (σ1 : List Value) (h1 : Handle),
      binarySub F κ σ l r = .ok σ1 h1 → σ.length ≤ σ1.length := by
  intro κ σ l r σ1 h1 h
  unfold binarySub allocV at h
  split at h
  all_goals first
    | (injection h with h1 h2
       subst h1
       simp)
    | injection h

theorem binaryDiv_mono (F : FloatOps) :
    ∀ (κ σ : List Value) (l r : Value) (σ1 : List Value) (h1 : Handle),
      binaryDiv F κ σ l r = .ok σ1 h1 → σ.length ≤ σ1.length := by
  intro κ σ l r σ1 h1 h
  unfold binaryDiv allocV at h
  split at h
  all_goals try split at h
  all_goals try split at h
  all_goals first
    | (injection h with h1 h2
       subst h1
       simp)
    | injection h

theorem binaryMod_mono (F : FloatOps) :
    ∀ (κ σ : List Value) (l r : Value) (σ1 : List Value) (h1 : Handle),
      binaryMod F κ σ l r = .ok σ1 h1 → σ.length ≤ σ1.length := by
  intro κ σ l r σ1 h1 h
  unfold binaryMod allocV at h
  split at h
  all_goals try split at h
  all_goals try split at h
  all_goals first
    | (injection h with h1 h2
       subst h1
       simp)
    | injection h

theorem binaryLt_mono (F : FloatOps) :
    ∀ (κ σ : List Value) (l r : Value) (σ1 : List Value) (h1 : Handle),
      binaryLt F κ σ l r = .ok σ1 h1 → σ.length ≤ σ1.length := by
  intro κ σ l r σ1 h1 h
  unfold binaryLt allocV at h
  split at h
  all_goals first
    | (injection h with h1 h2
       subst h1
       simp)
    | injection h

theorem binaryLe_mono (F : FloatOps) :
    ∀ (κ σ : List Value) (l r : Value) (σ1 : List Value) (h1 : Handle),
      binaryLe F κ σ l r = .ok σ1 h1 → σ.length ≤ σ1.length := by
  intro κ σ l r σ1 h1 h
  unfold binaryLe allocV at h
  split at h
  all_goals first
    | (injection h with h1 h2
       subst h1
       simp)
    | injection h

theorem binaryGt_mono (F : FloatOps) :
    ∀ (κ σ : List Value) (l r : Value) (σ1 : List Value) (h1 : Handle),
      binaryGt F κ σ l r = .ok σ1 h1 → σ.length ≤ σ1.length := by
  intro κ σ l r σ1 h1 h
  unfold binaryGt allocV at h
  split at h
  all_goals first
    | (injection h with h1 h2
       subst h1
       simp)
    | injection h

theorem binaryGe_mono (F : FloatOps) :
    ∀ (κ σ : List Value) (l r : Value) (σ1 : List Value) (h1 : Handle),
      binaryGe F κ σ l r = .ok σ1 h1 → σ.length ≤ σ1.length := by
  intro κ σ l r σ1 h1 h
  unfold binaryGe allocV at h
  split at h
  all_goals first
    | (injection h with h1 h2
       subst h1
       simp)
    | injection h

theorem binaryMul_mono (F : FloatOps) :
    ∀ (κ σ : List Value) (l r : Value) (σ1 : List Value) (h1 : Handle),
      binaryMul F κ σ l r = .ok σ1 h1 → σ.length ≤ σ1.length := by
  intro κ σ l r σ1 h1 h
  unfold binaryMul allocV at h
  split at h
  · injection h with h1 h2
    subst h1
    simp
  · injection h with h1 h2
    subst h1
    simp
  · injection h with h1 h2
    subst h1
    simp
  · injection h with h1 h2
    subst h1
    simp
  · split at h
    · injection h
    · split at h
      · injection h
      · next σr arr hrep =>
          injection h with h1 h2
          subst h1
          calc σ.length ≤ σr.length := shallowRepeat_mono _ _ _ _ _ _ hrep
            _ ≤ (σr ++ [Value.VArray arr]).length := by simp
  · split at h
    · injection h
    · injection h with h1 h2
      subst h1
      simp
  · injection h


theorem execOp_ok (F : FloatOps) (s : VM) (bc : Nat) : stepOK s bc (execOp F s bc) := by
  rw [execOp.eq_def]
  split
  · exact ⟨le_refl _, Or.inl rfl⟩
  · exact popLastStep_ok s _
  · exact replaceStep_ok s _
  · exact setInPlaceStep_ok s
  · exact loadConstStep_ok s
  · exact loadLocalStep_ok s _
  · exact makeArrayStep_ok s _
  · exact debugPrintStep_ok F s _
  · exact jumpIfFalseStep_ok F s _
  · exact jumpIfFalseNoPopStep_ok F s _
  · exact jumpStep_ok s _
  · exact getStep_ok s
  · exact unaryNegStep_ok s
  · exact unaryNotStep_ok F s _
  · exact binStep_ok F s _ binaryAdd "+" rfl (binaryAdd_mono F)
  · exact binStep_ok F s _ binarySub "-" rfl (binarySub_mono F)
  · exact binStep_ok F s _ binaryMul "*" rfl (binaryMul_mono F)
  · exact binStep_ok F s _ binaryDiv "/" rfl (binaryDiv_mono F)
  · exact binStep_ok F s _ binaryMod "%" rfl (binaryMod_mono F)
  · exact eqStep_ok F s _ false
  · exact eqStep_ok F s _ true
  · exact binStep_ok F s _ binaryLt "<" rfl (binaryLt_mono F)
  · exact binStep_ok F s _ binaryLe "<=" rfl (binaryLe_mono F)
  · exact binStep_ok F s _ binaryGt ">" rfl (binaryGt_mono F)
  · exact binStep_ok F s _ binaryGe ">=" rfl (binaryGe_mono F)
  · next b hb0 hb1 hb2 hb3 hb4 hb5 hb6 hb7 hb8 hb9 hb10 hb11 hb12 hb13 hb14 hb15
      hb16 hb17 hb18 hb19 hb20 hb21 hb22 hb23 hb24 =>
      apply stepOK_runtimeError
      · exact le_refl _
      · rfl
      · have hcon : ¬(bc = LOAD_CONST ∨ bc = LOAD_LOCAL ∨ bc = REPLACE ∨
            bc = JUMP_IF_FALSE ∨ bc = JUMP_IF_FALSE_NO_POP ∨ bc = JUMP) := by
          unfold LOAD_CONST LOAD_LOCAL REPLACE JUMP_IF_FALSE JUMP_IF_FALSE_NO_POP JUMP
          rintro (h | h | h | h | h | h)
          · exact hb4 h
          · exact hb5 h
          · exact hb2 h
          · exact hb8 h
          · exact hb9 h
          · exact hb10 h
        have hops : operands bc = 0 := by
          unfold operands
          rw [if_neg hcon]
        rw [hops]
        omega
      · rfl


/-! ### Crash-freedom helpers -/

theorem stack_one_split (st : List Handle) (h : 1 ≤ st.length) :
    ∃ t a, st = t ++ [a] := by
  rcases st.eq_nil_or_concat with rfl | ⟨t, a, rfl⟩
  · simp at h
  · exact ⟨t, a, by simp⟩

theorem stack_two_split (st : List Handle) (h : 2 ≤ st.length) :
    ∃ t a b, st = t ++ [a, b] := by
  rcases st.eq_nil_or_concat with rfl | ⟨t1, b, rfl⟩
  · simp at h
  · rcases t1.eq_nil_or_concat with rfl | ⟨t, a, rfl⟩
    · simp at h
    · exact ⟨t, a, b, by simp⟩

theorem scalarOnly_mem (s : VM) (hs : scalarOnlyStack s = true) (a : Handle)
    (ha : a ∈ s.stack) : ∃ v, derefVM s a = some v ∧ ∀ l, v ≠ Value.VArray l := by
  unfold scalarOnlyStack at hs
  rw [List.all_eq_true] at hs
  have h := hs a ha
  revert h
  cases hv : derefVM s a with
  | none => simp
  | some v => cases v <;> simp

theorem runtimeError_safe (s : VM) (msg : String) (h : s.pc < s.lines.length) :
    runtimeError s msg ≠ Step.crash := by
  unfold runtimeError
  rcases hl : s.lines.get? s.pc with - | sp
  · rw [List.get?_eq_none] at hl
    omega
  · simp

theorem popN_some (st : List Handle) (n : Nat) (h : n ≤ st.length) :
    ∃ l rest, popN st n = some (l, rest) ∧ rest.length = st.length - n := by
  induction n generalizing st with
  | zero => exact ⟨[], st, rfl, by omega⟩
  | succ m ih =>
      rcases stack_one_split st (by omega) with ⟨t, a, rfl⟩
      have hlen : t.length + 1 = (t ++ [a]).length := by simp
      rcases ih t (by simp at h; omega) with ⟨l, rest, hp, hr⟩
      refine ⟨a :: l, rest, ?_, ?_⟩
      · unfold popN
        rw [topS_concat, popS_concat, hp]
      · simp [hr]

theorem isEqualV_scalar_isSome (F : FloatOps) (κ σ : List Value) (n : Nat) (l r : Value)
    (hl : ∀ a, l ≠ Value.VArray a) : (isEqualV F κ σ (n + 1) l r).isSome = true := by
  cases l <;> cases r <;> simp [isEqualV] at hl ⊢

theorem debugFormat_scalar_isSome (F : FloatOps) (κ σ : List Value) (n : Nat) (v : Value)
    (hv : ∀ a, v ≠ Value.VArray a) : (debugFormat F κ σ (n + 1) v).isSome = true := by
  cases v <;> simp [debugFormat] at hv ⊢

theorem binaryAdd_no_crash (F : FloatOps) (κ σ : List Value) (l r : Value) :
    binaryAdd F κ σ l r ≠ BinRes.crash := by
  cases l <;> cases r <;> simp [binaryAdd]

theorem binarySub_no_crash (F : FloatOps) (κ σ : List Value) (l r : Value) :
    binarySub F κ σ l r ≠ BinRes.crash := by
  cases l <;> cases r <;> simp [binarySub]

theorem binaryMul_no_crash (F : FloatOps) (κ σ : List Value) (l r : Value)
    (hl : ∀ a, l ≠ Value.VArray a) : binaryMul F κ σ l r ≠ BinRes.crash := by
  cases l <;> cases r <;> simp [binaryMul] at hl ⊢

theorem binaryDiv_no_crash (F : FloatOps) (κ σ : List Value) (l r : Value)
    (hex : ¬(l = Value.VInt I64.minI ∧ r = Value.VInt (-1))) :
    binaryDiv F κ σ l r ≠ BinRes.crash := by
  cases l <;> cases r <;> simp only [binaryDiv] <;>
    first
      | (simp; done)
      | (split
         · simp
         · split
           · rename_i hmin
             exact absurd ⟨congrArg Value.VInt hmin.1, congrArg Value.VInt hmin.2⟩ hex
           · simp)
      | (split <;> simp)

theorem binaryMod_no_crash (F : FloatOps) (κ σ : List Value) (l r : Value)
    (hex : ¬(l = Value.VInt I64.minI ∧ r = Value.VInt (-1))) :
    binaryMod F κ σ l r ≠ BinRes.crash := by
  cases l <;> cases r <;> simp only [binaryMod] <;>
    first
      | (simp; done)
      | (split
         · simp
         · split
           · rename_i hmin
             exact absurd ⟨congrArg Value.VInt hmin.1, congrArg Value.VInt hmin.2⟩ hex
           · simp)
      | (split <;> simp)

theorem binaryLt_no_crash (F : FloatOps) (κ σ : List Value) (l r : Value) :
    binaryLt F κ σ l r ≠ BinRes.crash := by
  cases l <;> cases r <;> simp [binaryLt]

theorem binaryLe_no_crash (F : FloatOps) (κ σ : List Value) (l r : Value) :
    binaryLe F κ σ l r ≠ BinRes.crash := by
  cases l <;> cases r <;> simp [binaryLe]

theorem binaryGt_no_crash (F : FloatOps) (κ σ : List Value) (l r : Value) :
    binaryGt F κ σ l r ≠ BinRes.crash := by
  cases l <;> cases r <;> simp [binaryGt]

theorem binaryGe_no_crash (F : FloatOps) (κ σ : List Value) (l r : Value) :
    binaryGe F κ σ l r ≠ BinRes.crash := by
  cases l <;> cases r <;> simp [binaryGe]

theorem getElement_no_crash (κ σ : List Value) (callee : Value) (idx : Handle)
    (hi : (derefIn κ σ idx).isSome = true) : getElement κ σ callee idx ≠ BinRes.crash := by
  unfold getElement
  rcases hd : derefIn κ σ idx with - | w
  · rw [hd] at hi; simp at hi
  · cases callee <;> dsimp only <;> try rw [hd]
    all_goals cases w <;> (try dsimp only) <;>
      first
        | (simp; done)
        | (split
           · simp
           · (split <;> simp))

theorem getElement_ne_noMatch (κ σ : List Value) (callee : Value) (idx : Handle) :
    getElement κ σ callee idx ≠ BinRes.noMatch := by
  unfold getElement
  rcases hd : derefIn κ σ idx with - | w
  all_goals cases callee <;> dsimp only <;> try rw [hd]
  all_goals try (simp; done)
  all_goals cases w <;> (try dsimp only) <;>
    first
      | (simp; done)
      | (split
         · simp
         · (split <;> simp))

theorem shallowCopyIn_some (κ σ : List Value) (h : Handle)
    (hd : (derefIn κ σ h).isSome = true) : (shallowCopyIn κ σ h).isSome = true := by
  unfold shallowCopyIn
  rcases hv : derefIn κ σ h with - | v
  · rw [hv] at hd; simp at hd
  · cases v <;> simp


theorem pushChecked_none_len (s : VM) (h : Handle) (hp : pushChecked s h = none) :
    STACK_SIZE ≤ s.stack.length := by
  unfold pushChecked at hp
  split at hp
  · next hge => exact hge
  · cases hp

theorem writeVM_stack (s : VM) (h : Handle) (v : Value) : (writeVM s h v).stack = s.stack := by
  unfold writeVM
  split <;> rfl

theorem popLastStep_safe (s : VM) : popLastStep s ≠ Step.crash := by
  unfold popLastStep
  dsimp only
  split <;> simp

theorem jumpStep_safe (s : VM) (o : Nat) (ho : s.bytecodes.get? s.pc = some o) :
    jumpStep s ≠ Step.crash := by
  unfold jumpStep readOperand
  rw [ho]
  simp

theorem loadConstStep_safe (s : VM) (o : Nat)
    (ho : s.bytecodes.get? s.pc = some o) (hoc : o < s.constants.length)
    (hline : s.pc + 1 < s.lines.length) : loadConstStep s ≠ Step.crash := by
  unfold loadConstStep readOperand
  rw [ho]
  dsimp only
  rcases hc : s.constants.get? o with - | c
  · rw [List.get?_eq_none] at hc
    omega
  · dsimp only [allocV]
    split
    · exact runtimeError_safe _ _ hline
    · simp

theorem loadLocalStep_safe (s : VM) (o : Nat)
    (ho : s.bytecodes.get? s.pc = some o) (hidx : o < s.stack.length)
    (hcap : s.stack.length < STACK_SIZE) : loadLocalStep s ≠ Step.crash := by
  unfold loadLocalStep readOperand
  rw [ho]
  dsimp only
  rcases hg : s.stack.get? o with - | h
  · rw [List.get?_eq_none] at hg
    omega
  · dsimp only
    split
    · next hp =>
        have hge := pushChecked_none_len _ _ hp
        dsimp only at hge
        omega
    · simp

theorem makeArrayStep_safe (s : VM) (o : Nat)
    (ho : s.bytecodes.get? s.pc = some o) (hn : o ≤ s.stack.length)
    (hrem : s.stack.length - o < STACK_SIZE) : makeArrayStep s ≠ Step.crash := by
  unfold makeArrayStep readOperand
  rw [ho]
  dsimp only
  obtain ⟨l, rest, hpop, hrest⟩ := popN_some s.stack o hn
  rw [hpop]
  dsimp only [allocV]
  split
  · next hp =>
      have hge := pushChecked_none_len _ _ hp
      dsimp only at hge
      omega
  · simp

theorem replaceStep_safe (s : VM) (o : Nat)
    (ho : s.bytecodes.get? s.pc = some o)
    (hlen : 1 ≤ s.stack.length)
    (hcap : o + 1 ≤ STACK_SIZE)
    (hnull : NULL_CONSTANT < s.constants.length)
    (hscal : scalarOnlyStack s = true) :
    replaceStep s ≠ Step.crash := by
  rcases stack_one_split s.stack hlen with ⟨t, a, hst⟩
  obtain ⟨av, hda, -⟩ := scalarOnly_mem s hscal a (by rw [hst]; simp)
  unfold derefVM at hda
  have hsc : (shallowCopyIn s.constants s.heap a).isSome = true :=
    shallowCopyIn_some _ _ _ (by rw [hda]; rfl)
  obtain ⟨⟨σ1, h1⟩, hsc1⟩ := Option.isSome_iff_exists.mp hsc
  unfold replaceStep readOperand
  rw [ho]
  dsimp only
  rw [hst, topS_concat]
  dsimp only
  rw [popS_concat]
  split
  · rw [if_neg (by omega), if_neg (by omega)]
    rw [hsc1]
    simp
  · rw [hsc1]
    simp

theorem setInPlaceStep_safe (s : VM) (hlen : 2 ≤ s.stack.length)
    (hcap : s.stack.length ≤ STACK_SIZE) (hscal : scalarOnlyStack s = true) :
    setInPlaceStep s ≠ Step.crash := by
  rcases stack_two_split s.stack hlen with ⟨t, p, v, hst⟩
  obtain ⟨vv, hdv, -⟩ := scalarOnly_mem s hscal v (by rw [hst]; simp)
  obtain ⟨pv, hdp, -⟩ := scalarOnly_mem s hscal p (by rw [hst]; simp)
  unfold derefVM at hdv hdp
  unfold setInPlaceStep
  rw [hst, topS_concat2]
  dsimp only
  rw [popS_concat2, topS_concat]
  dsimp only
  rw [popS_concat]
  unfold derefVM
  dsimp only
  rw [hdv, hdp]
  dsimp only [Option.isNone]
  rw [if_neg (by simp)]
  split
  · next hp =>
      have hge := pushChecked_none_len _ _ hp
      rw [writeVM_stack] at hge
      dsimp only at hge
      have hlen3 : s.stack.length = t.length + 2 := by rw [hst]; simp
      omega
  · simp


theorem debugPrintStep_safe (F : FloatOps) (s : VM) (hlen : 1 ≤ s.stack.length)
    (hscal : scalarOnlyStack s = true) : debugPrintStep F s ≠ Step.crash := by
  rcases stack_one_split s.stack hlen with ⟨t, a, hst⟩
  obtain ⟨av, hda, hnar⟩ := scalarOnly_mem s hscal a (by rw [hst]; simp)
  unfold derefVM at hda
  unfold debugPrintStep
  rw [hst, topS_concat]
  dsimp only
  rw [popS_concat]
  unfold derefVM
  dsimp only
  rw [hda]
  dsimp only
  have hfmt := debugFormat_scalar_isSome F s.constants s.heap s.heap.length av hnar
  obtain ⟨str, hstr⟩ := Option.isSome_iff_exists.mp hfmt
  rw [hstr]
  simp

theorem jumpIfFalseStep_safe (F : FloatOps) (s : VM) (o : Nat)
    (ho : s.bytecodes.get? s.pc = some o) (hlen : 1 ≤ s.stack.length)
    (hscal : scalarOnlyStack s = true) : jumpIfFalseStep F s ≠ Step.crash := by
  rcases stack_one_split s.stack hlen with ⟨t, a, hst⟩
  obtain ⟨av, hda, -⟩ := scalarOnly_mem s hscal a (by rw [hst]; simp)
  unfold derefVM at hda
  unfold jumpIfFalseStep readOperand
  rw [ho]
  dsimp only
  rw [hst, topS_concat]
  dsimp only
  rw [popS_concat]
  unfold derefVM
  dsimp only
  rw [hda]
  simp

theorem jumpIfFalseNoPop_eq (F : FloatOps) (s : VM) :
    jumpIfFalseNoPopStep F s = jumpIfFalseStep F s := rfl

theorem getStep_safe (s : VM) (hlen : 2 ≤ s.stack.length)
    (hcap : s.stack.length ≤ STACK_SIZE) (hline : s.pc < s.lines.length)
    (hscal : scalarOnlyStack s = true) : getStep s ≠ Step.crash := by
  rcases stack_two_split s.stack hlen with ⟨t, ch, ih, hst⟩
  obtain ⟨iv, hdi, -⟩ := scalarOnly_mem s hscal ih (by rw [hst]; simp)
  obtain ⟨cv, hdc, -⟩ := scalarOnly_mem s hscal ch (by rw [hst]; simp)
  unfold derefVM at hdi hdc
  unfold getStep
  rw [hst, topS_concat2]
  dsimp only
  rw [popS_concat2, topS_concat]
  dsimp only
  rw [popS_concat]
  unfold derefVM
  dsimp only
  rw [hdc]
  dsimp only
  rcases hge : getElement s.constants s.heap cv ih with ⟨σ1, h1⟩ | e | - | -
  · dsimp only
    split
    · next hp =>
        have hge2 := pushChecked_none_len _ _ hp
        dsimp only at hge2
        have hlen3 : s.stack.length = t.length + 2 := by rw [hst]; simp
        unfold STACK_SIZE at hcap hge2
        omega
    · simp
  · exact runtimeError_safe _ _ hline
  · exact absurd hge (getElement_ne_noMatch _ _ _ _)
  · exact absurd hge (getElement_no_crash _ _ _ _ (by rw [hdi]; rfl))

theorem unaryNegStep_safe (s : VM) (hlen : 1 ≤ s.stack.length)
    (hcap : s.stack.length ≤ STACK_SIZE) (hline : s.pc < s.lines.length)
    (hscal : scalarOnlyStack s = true) : unaryNegStep s ≠ Step.crash := by
  rcases stack_one_split s.stack hlen with ⟨t, a, hst⟩
  obtain ⟨av, hda, -⟩ := scalarOnly_mem s hscal a (by rw [hst]; simp)
  unfold derefVM at hda
  unfold unaryNegStep
  rw [hst, topS_concat]
  dsimp only
  rw [popS_concat]
  unfold derefVM
  dsimp only
  rw [hda]
  cases av <;> (try dsimp only [allocV]) <;>
    first
      | (exact runtimeError_safe _ _ hline)
      | (split
         · next hp =>
             have hge := pushChecked_none_len _ _ hp
             dsimp only at hge
             have hlen3 : s.stack.length = t.length + 1 := by rw [hst]; simp
             unfold STACK_SIZE at hcap hge
             omega
         · simp)

theorem unaryNotStep_safe (F : FloatOps) (s : VM) (hlen : 1 ≤ s.stack.length)
    (hcap : s.stack.length ≤ STACK_SIZE)
    (hscal : scalarOnlyStack s = true) : unaryNotStep F s ≠ Step.crash := by
  rcases stack_one_split s.stack hlen with ⟨t, a, hst⟩
  obtain ⟨av, hda, -⟩ := scalarOnly_mem s hscal a (by rw [hst]; simp)
  unfold derefVM at hda
  unfold unaryNotStep
  rw [hst, topS_concat]
  dsimp only
  rw [popS_concat]
  unfold derefVM
  dsimp only
  rw [hda]
  dsimp only [allocV]
  split
  · next hp =>
      have hge := pushChecked_none_len _ _ hp
      dsimp only at hge
      have hlen3 : s.stack.length = t.length + 1 := by rw [hst]; simp
      unfold STACK_SIZE at hcap hge
      omega
  · simp

theorem binStep_safe (F : FloatOps) (s : VM)
    (op : FloatOps → List Value → List Value → Value → Value → BinRes) (sym : String)
    (hlen : 2 ≤ s.stack.length) (hcap : s.stack.length ≤ STACK_SIZE)
    (hline : s.pc < s.lines.length) (hscal : scalarOnlyStack s = true)
    (hop : ∀ l r, top2Val s = some l → topVal s = some r →
        op F s.constants s.heap l r ≠ BinRes.crash) :
    binStep F s op sym ≠ Step.crash := by
  rcases stack_two_split s.stack hlen with ⟨t, lh, rh, hst⟩
  obtain ⟨lv, hdl, -⟩ := scalarOnly_mem s hscal lh (by rw [hst]; simp)
  obtain ⟨rv, hdr, -⟩ := scalarOnly_mem s hscal rh (by rw [hst]; simp)
  have htopr : topVal s = some rv := by
    unfold topVal
    rw [hst, topS_concat2]
    exact hdr
  have htopl : top2Val s = some lv := by
    unfold top2Val
    rw [hst, popS_concat2, topS_concat]
    exact hdl
  unfold derefVM at hdl hdr
  unfold binStep
  rw [hst, topS_concat2]
  dsimp only
  rw [popS_concat2, topS_concat]
  dsimp only
  rw [popS_concat]
  unfold derefVM
  dsimp only
  rw [hdr, hdl]
  dsimp only
  rcases hres : op F s.constants s.heap lv rv with ⟨σ1, h1⟩ | e | - | -
  · dsimp only
    split
    · next hp =>
        have hge := pushChecked_none_len _ _ hp
        dsimp only at hge
        have hlen3 : s.stack.length = t.length + 2 := by rw [hst]; simp
        unfold STACK_SIZE at hcap hge
        omega
    · simp
  · exact runtimeError_safe _ _ hline
  · exact runtimeError_safe _ _ hline
  · exact absurd hres (hop lv rv htopl htopr)

theorem eqStep_safe (F : FloatOps) (s : VM) (negate : Bool)
    (hlen : 2 ≤ s.stack.length) (hcap : s.stack.length ≤ STACK_SIZE)
    (hscal : scalarOnlyStack s = true) : eqStep F s negate ≠ Step.crash := by
  rcases stack_two_split s.stack hlen with ⟨t, lh, rh, hst⟩
  obtain ⟨lv, hdl, hlar⟩ := scalarOnly_mem s hscal lh (by rw [hst]; simp)
  obtain ⟨rv, hdr, -⟩ := scalarOnly_mem s hscal rh (by rw [hst]; simp)
  unfold derefVM at hdl hdr
  unfold eqStep
  rw [hst, topS_concat2]
  dsimp only
  rw [popS_concat2, topS_concat]
  dsimp only
  rw [popS_concat]
  unfold derefVM
  dsimp only
  rw [hdr, hdl]
  dsimp only
  have hsome := isEqualV_scalar_isSome F s.constants s.heap s.heap.length lv rv hlar
  obtain ⟨b, hb⟩ := Option.isSome_iff_exists.mp hsome
  rw [hb]
  dsimp only [allocV]
  split
  · next hp =>
      have hge := pushChecked_none_len _ _ hp
      dsimp only at hge
      have hlen3 : s.stack.length = t.length + 2 := by rw [hst]; simp
      unfold STACK_SIZE at hcap hge
      omega
  · simp


theorem scalarOnly_pc (s : VM) (n : Nat) :
    scalarOnlyStack { s with pc := n } = scalarOnlyStack s := rfl

theorem topVal_pc (s : VM) (n : Nat) : topVal { s with pc := n } = topVal s := rfl

theorem top2Val_pc (s : VM) (n : Nat) : top2Val { s with pc := n } = top2Val s := rfl

theorem top2Val_scalar (s : VM) (hscal : scalarOnlyStack s = true) (l : Value)
    (h : top2Val s = some l) : ∀ a, l ≠ Value.VArray a := by
  unfold top2Val at h
  rcases ht : topS (popS s.stack) with - | hh
  · rw [ht] at h
    cases h
  · rw [ht] at h
    simp only [Option.bind] at h
    have hmem1 : hh ∈ popS s.stack := by
      rw [topS_popS_eq _ _ ht]
      simp
    have hmem : hh ∈ s.stack := ((List.dropLast_prefix s.stack).sublist).subset hmem1
    obtain ⟨v, hv, hnar⟩ := scalarOnly_mem s hscal hh hmem
    obtain rfl : v = l := Option.some.inj (hv.symm.trans h)
    exact hnar

/-- C1: every opcode dispatched from a state satisfying the decidable
safety precondition stepSafeB (operands and a fault span inside the
streams, stack within capacity and holding enough scalar operands,
indices in range, the division pair (minI, -1) excluded) either continues
or faults through the error slot: it never reaches a Rust panic or UB
(crash). The unguarded claim is refuted by c1_counterexample: REPLACE on
an empty evaluation stack panics on the unwrap of pop(). -/
theorem c1_guarded_dispatch_never_crashes (F : FloatOps) (s : VM)
    (h : stepSafeB s = true) : execStep F s ≠ Step.crash := by
  unfold stepSafeB at h
  unfold execStep
  rcases hbc : s.bytecodes.get? s.pc with - | bc
  · rw [hbc] at h
    simp at h
  · rw [hbc] at h
    simp only [Bool.and_eq_true, decide_eq_true_eq] at h
    obtain ⟨⟨⟨⟨hline, hstk⟩, hscal⟩, hopnd⟩, hif⟩ := h
    dsimp only
    rw [execOp.eq_def]
    split
    · -- NOOP
      simp
    · -- POP_LAST
      exact popLastStep_safe _
    · -- REPLACE
      simp only [REPLACE, SET_IN_PLACE, LOAD_CONST, LOAD_LOCAL, MAKE_ARRAY, DEBUG_PRINT,
        JUMP_IF_FALSE, JUMP_IF_FALSE_NO_POP, JUMP, GET, UNARY_NEG, UNARY_NOT, BINARY_DIV,
        BINARY_MOD, BINARY_ADD, BINARY_SUB, BINARY_MUL, BINARY_EQ, BINARY_NE, BINARY_LT,
        BINARY_LE, BINARY_GT, BINARY_GE, Nat.reduceEqDiff, reduceIte, or_true, true_or, or_false, false_or, if_true, if_false] at hif
      rcases ho : s.bytecodes.get? (s.pc + 1) with - | o
      · rw [ho] at hif
        cases hif
      · rw [ho] at hif
        simp only [Bool.and_eq_true, decide_eq_true_eq] at hif
        obtain ⟨⟨h1, h2⟩, h3⟩ := hif
        exact replaceStep_safe _ o ho h1 h2 h3 hscal
    · -- SET_IN_PLACE
      simp only [REPLACE, SET_IN_PLACE, LOAD_CONST, LOAD_LOCAL, MAKE_ARRAY, DEBUG_PRINT,
        JUMP_IF_FALSE, JUMP_IF_FALSE_NO_POP, JUMP, GET, UNARY_NEG, UNARY_NOT, BINARY_DIV,
        BINARY_MOD, BINARY_ADD, BINARY_SUB, BINARY_MUL, BINARY_EQ, BINARY_NE, BINARY_LT,
        BINARY_LE, BINARY_GT, BINARY_GE, Nat.reduceEqDiff, reduceIte, or_true, true_or, or_false, false_or, if_true, if_false, decide_eq_true_eq] at hif
      exact setInPlaceStep_safe _ hif hstk hscal
    · -- LOAD_CONST
      simp only [REPLACE, SET_IN_PLACE, LOAD_CONST, LOAD_LOCAL, MAKE_ARRAY, DEBUG_PRINT,
        JUMP_IF_FALSE, JUMP_IF_FALSE_NO_POP, JUMP, GET, UNARY_NEG, UNARY_NOT, BINARY_DIV,
        BINARY_MOD, BINARY_ADD, BINARY_SUB, BINARY_MUL, BINARY_EQ, BINARY_NE, BINARY_LT,
        BINARY_LE, BINARY_GT, BINARY_GE, Nat.reduceEqDiff, reduceIte, or_true, true_or, or_false, false_or, if_true, if_false] at hif
      rcases ho : s.bytecodes.get? (s.pc + 1) with - | o
      · rw [ho] at hif
        cases hif
      · rw [ho] at hif
        simp only [decide_eq_true_eq] at hif
        rw [show operands 4 = 1 from by decide] at hline
        refine loadConstStep_safe _ o ho hif ?_
        show s.pc + 1 + 1 < s.lines.length
        omega
    · -- LOAD_LOCAL
      simp only [REPLACE, SET_IN_PLACE, LOAD_CONST, LOAD_LOCAL, MAKE_ARRAY, DEBUG_PRINT,
        JUMP_IF_FALSE, JUMP_IF_FALSE_NO_POP, JUMP, GET, UNARY_NEG, UNARY_NOT, BINARY_DIV,
        BINARY_MOD, BINARY_ADD, BINARY_SUB, BINARY_MUL, BINARY_EQ, BINARY_NE, BINARY_LT,
        BINARY_LE, BINARY_GT, BINARY_GE, Nat.reduceEqDiff, reduceIte, or_true, true_or, or_false, false_or, if_true, if_false] at hif
      rcases ho : s.bytecodes.get? (s.pc + 1) with - | o
      · rw [ho] at hif
        cases hif
      · rw [ho] at hif
        simp only [Bool.and_eq_true, decide_eq_true_eq] at hif
        exact loadLocalStep_safe _ o ho hif.1 hif.2
    · -- MAKE_ARRAY
      simp only [REPLACE, SET_IN_PLACE, LOAD_CONST, LOAD_LOCAL, MAKE_ARRAY, DEBUG_PRINT,
        JUMP_IF_FALSE, JUMP_IF_FALSE_NO_POP, JUMP, GET, UNARY_NEG, UNARY_NOT, BINARY_DIV,
        BINARY_MOD, BINARY_ADD, BINARY_SUB, BINARY_MUL, BINARY_EQ, BINARY_NE, BINARY_LT,
        BINARY_LE, BINARY_GT, BINARY_GE, Nat.reduceEqDiff, reduceIte, or_true, true_or, or_false, false_or, if_true, if_false] at hif
      rcases ho : s.bytecodes.get? (s.pc + 1) with - | o
      · rw [ho] at hif
        cases hif
      · rw [ho] at hif
        simp only [Bool.and_eq_true, decide_eq_true_eq] at hif
        exact makeArrayStep_safe _ o ho hif.1 hif.2
    · -- DEBUG_PRINT
      simp only [REPLACE, SET_IN_PLACE, LOAD_CONST, LOAD_LOCAL, MAKE_ARRAY, DEBUG_PRINT,
        JUMP_IF_FALSE, JUMP_IF_FALSE_NO_POP, JUMP, GET, UNARY_NEG, UNARY_NOT, BINARY_DIV,
        BINARY_MOD, BINARY_ADD, BINARY_SUB, BINARY_MUL, BINARY_EQ, BINARY_NE, BINARY_LT,
        BINARY_LE, BINARY_GT, BINARY_GE, Nat.reduceEqDiff, reduceIte, or_true, true_or, or_false, false_or, if_true, if_false, decide_eq_true_eq] at hif
      exact debugPrintStep_safe F _ hif hscal
    · -- JUMP_IF_FALSE
      simp only [REPLACE, SET_IN_PLACE, LOAD_CONST, LOAD_LOCAL, MAKE_ARRAY, DEBUG_PRINT,
        JUMP_IF_FALSE, JUMP_IF_FALSE_NO_POP, JUMP, GET, UNARY_NEG, UNARY_NOT, BINARY_DIV,
        BINARY_MOD, BINARY_ADD, BINARY_SUB, BINARY_MUL, BINARY_EQ, BINARY_NE, BINARY_LT,
        BINARY_LE, BINARY_GT, BINARY_GE, Nat.reduceEqDiff, reduceIte, or_true, true_or, or_false, false_or, if_true, if_false, decide_eq_true_eq] at hif
      rcases ho : s.bytecodes.get? (s.pc + 1) with - | o
      · rw [ho] at hopnd
        rw [show operands 9 = 1 from by decide] at hopnd
        simp at hopnd
      · exact jumpIfFalseStep_safe F _ o ho hif hscal
    · -- JUMP_IF_FALSE_NO_POP
      simp only [REPLACE, SET_IN_PLACE, LOAD_CONST, LOAD_LOCAL, MAKE_ARRAY, DEBUG_PRINT,
        JUMP_IF_FALSE, JUMP_IF_FALSE_NO_POP, JUMP, GET, UNARY_NEG, UNARY_NOT, BINARY_DIV,
        BINARY_MOD, BINARY_ADD, BINARY_SUB, BINARY_MUL, BINARY_EQ, BINARY_NE, BINARY_LT,
        BINARY_LE, BINARY_GT, BINARY_GE, Nat.reduceEqDiff, reduceIte, or_true, true_or, or_false, false_or, if_true, if_false, decide_eq_true_eq] at hif
      rcases ho : s.bytecodes.get? (s.pc + 1) with - | o
      · rw [ho] at hopnd
        rw [show operands 10 = 1 from by decide] at hopnd
        simp at hopnd
      · rw [jumpIfFalseNoPop_eq]
        exact jumpIfFalseStep_safe F _ o ho hif hscal
    · -- JUMP
      rcases ho : s.bytecodes.get? (s.pc + 1) with - | o
      · rw [ho] at hopnd
        rw [show operands 11 = 1 from by decide] at hopnd
        simp at hopnd
      · exact jumpStep_safe _ o ho
    · -- GET
      simp only [REPLACE, SET_IN_PLACE, LOAD_CONST, LOAD_LOCAL, MAKE_ARRAY, DEBUG_PRINT,
        JUMP_IF_FALSE, JUMP_IF_FALSE_NO_POP, JUMP, GET, UNARY_NEG, UNARY_NOT, BINARY_DIV,
        BINARY_MOD, BINARY_ADD, BINARY_SUB, BINARY_MUL, BINARY_EQ, BINARY_NE, BINARY_LT,
        BINARY_LE, BINARY_GT, BINARY_GE, Nat.reduceEqDiff, reduceIte, or_true, true_or, or_false, false_or, if_true, if_false, decide_eq_true_eq] at hif
      rw [show operands 12 = 0 from by decide] at hline
      refine getStep_safe _ hif hstk ?_ hscal
      show s.pc + 1 < s.lines.length
      omega
    · -- UNARY_NEG
      simp only [REPLACE, SET_IN_PLACE, LOAD_CONST, LOAD_LOCAL, MAKE_ARRAY, DEBUG_PRINT,
        JUMP_IF_FALSE, JUMP_IF_FALSE_NO_POP, JUMP, GET, UNARY_NEG, UNARY_NOT, BINARY_DIV,
        BINARY_MOD, BINARY_ADD, BINARY_SUB, BINARY_MUL, BINARY_EQ, BINARY_NE, BINARY_LT,
        BINARY_LE, BINARY_GT, BINARY_GE, Nat.reduceEqDiff, reduceIte, or_true, true_or, or_false, false_or, if_true, if_false, decide_eq_true_eq] at hif
      rw [show operands 13 = 0 from by decide] at hline
      refine unaryNegStep_safe _ hif hstk ?_ hscal
      show s.pc + 1 < s.lines.length
      omega
    · -- UNARY_NOT
      simp only [REPLACE, SET_IN_PLACE, LOAD_CONST, LOAD_LOCAL, MAKE_ARRAY, DEBUG_PRINT,
        JUMP_IF_FALSE, JUMP_IF_FALSE_NO_POP, JUMP, GET, UNARY_NEG, UNARY_NOT, BINARY_DIV,
        BINARY_MOD, BINARY_ADD, BINARY_SUB, BINARY_MUL, BINARY_EQ, BINARY_NE, BINARY_LT,
        BINARY_LE, BINARY_GT, BINARY_GE, Nat.reduceEqDiff, reduceIte, or_true, true_or, or_false, false_or, if_true, if_false, decide_eq_true_eq] at hif
      exact unaryNotStep_safe F _ hif hstk hscal
    · -- BINARY_ADD
      simp only [REPLACE, SET_IN_PLACE, LOAD_CONST, LOAD_LOCAL, MAKE_ARRAY, DEBUG_PRINT,
        JUMP_IF_FALSE, JUMP_IF_FALSE_NO_POP, JUMP, GET, UNARY_NEG, UNARY_NOT, BINARY_DIV,
        BINARY_MOD, BINARY_ADD, BINARY_SUB, BINARY_MUL, BINARY_EQ, BINARY_NE, BINARY_LT,
        BINARY_LE, BINARY_GT, BINARY_GE, Nat.reduceEqDiff, reduceIte, or_true, true_or, or_false, false_or, if_true, if_false, decide_eq_true_eq] at hif
      rw [show operands 15 = 0 from by decide] at hline
      refine binStep_safe F _ binaryAdd "+" hif hstk ?_ hscal ?_
      · show s.pc + 1 < s.lines.length
        omega
      · exact fun l r _ _ => binaryAdd_no_crash F _ _ l r
    · -- BINARY_SUB
      simp only [REPLACE, SET_IN_PLACE, LOAD_CONST, LOAD_LOCAL, MAKE_ARRAY, DEBUG_PRINT,
        JUMP_IF_FALSE, JUMP_IF_FALSE_NO_POP, JUMP, GET, UNARY_NEG, UNARY_NOT, BINARY_DIV,
        BINARY_MOD, BINARY_ADD, BINARY_SUB, BINARY_MUL, BINARY_EQ, BINARY_NE, BINARY_LT,
        BINARY_LE, BINARY_GT, BINARY_GE, Nat.reduceEqDiff, reduceIte, or_true, true_or, or_false, false_or, if_true, if_false, decide_eq_true_eq] at hif
      rw [show operands 16 = 0 from by decide] at hline
      refine binStep_safe F _ binarySub "-" hif hstk ?_ hscal ?_
      · show s.pc + 1 < s.lines.length
        omega
      · exact fun l r _ _ => binarySub_no_crash F _ _ l r
    · -- BINARY_MUL
      simp only [REPLACE, SET_IN_PLACE, LOAD_CONST, LOAD_LOCAL, MAKE_ARRAY, DEBUG_PRINT,
        JUMP_IF_FALSE, JUMP_IF_FALSE_NO_POP, JUMP, GET, UNARY_NEG, UNARY_NOT, BINARY_DIV,
        BINARY_MOD, BINARY_ADD, BINARY_SUB, BINARY_MUL, BINARY_EQ, BINARY_NE, BINARY_LT,
        BINARY_LE, BINARY_GT, BINARY_GE, Nat.reduceEqDiff, reduceIte, or_true, true_or, or_false, false_or, if_true, if_false, decide_eq_true_eq] at hif
      rw [show operands 17 = 0 from by decide] at hline
      refine binStep_safe F _ binaryMul "*" hif hstk ?_ hscal ?_
      · show s.pc + 1 < s.lines.length
        omega
      · intro l r h2 h1
        rw [top2Val_pc] at h2
        exact binaryMul_no_crash F _ _ l r (top2Val_scalar s hscal l h2)
    · -- BINARY_DIV
      simp only [REPLACE, SET_IN_PLACE, LOAD_CONST, LOAD_LOCAL, MAKE_ARRAY, DEBUG_PRINT,
        JUMP_IF_FALSE, JUMP_IF_FALSE_NO_POP, JUMP, GET, UNARY_NEG, UNARY_NOT, BINARY_DIV,
        BINARY_MOD, BINARY_ADD, BINARY_SUB, BINARY_MUL, BINARY_EQ, BINARY_NE, BINARY_LT,
        BINARY_LE, BINARY_GT, BINARY_GE, Nat.reduceEqDiff, reduceIte, or_true, true_or, or_false, false_or, if_true, if_false, Bool.and_eq_true, decide_eq_true_eq,
        Bool.not_eq_true', Bool.and_eq_false_iff, decide_eq_false_iff_not] at hif
      rw [show operands 18 = 0 from by decide] at hline
      refine binStep_safe F _ binaryDiv "/" hif.1 hstk ?_ hscal ?_
      · show s.pc + 1 < s.lines.length
        omega
      · intro l r h2 h1
        rw [top2Val_pc] at h2
        rw [topVal_pc] at h1
        refine binaryDiv_no_crash F _ _ l r ?_
        rintro ⟨rfl, rfl⟩
        rcases hif.2 with hA | hB
        · exact hA h2
        · exact hB h1
    · -- BINARY_MOD
      simp only [REPLACE, SET_IN_PLACE, LOAD_CONST, LOAD_LOCAL, MAKE_ARRAY, DEBUG_PRINT,
        JUMP_IF_FALSE, JUMP_IF_FALSE_NO_POP, JUMP, GET, UNARY_NEG, UNARY_NOT, BINARY_DIV,
        BINARY_MOD, BINARY_ADD, BINARY_SUB, BINARY_MUL, BINARY_EQ, BINARY_NE, BINARY_LT,
        BINARY_LE, BINARY_GT, BINARY_GE, Nat.reduceEqDiff, reduceIte, or_true, true_or, or_false, false_or, if_true, if_false, Bool.and_eq_true, decide_eq_true_eq,
        Bool.not_eq_true', Bool.and_eq_false_iff, decide_eq_false_iff_not] at hif
      rw [show operands 19 = 0 from by decide] at hline
      refine binStep_safe F _ binaryMod "%" hif.1 hstk ?_ hscal ?_
      · show s.pc + 1 < s.lines.length
        omega
      · intro l r h2 h1
        rw [top2Val_pc] at h2
        rw [topVal_pc] at h1
        refine binaryMod_no_crash F _ _ l r ?_
        rintro ⟨rfl, rfl⟩
        rcases hif.2 with hA | hB
        · exact hA h2
        · exact hB h1
    · -- BINARY_EQ
      simp only [REPLACE, SET_IN_PLACE, LOAD_CONST, LOAD_LOCAL, MAKE_ARRAY, DEBUG_PRINT,
        JUMP_IF_FALSE, JUMP_IF_FALSE_NO_POP, JUMP, GET, UNARY_NEG, UNARY_NOT, BINARY_DIV,
        BINARY_MOD, BINARY_ADD, BINARY_SUB, BINARY_MUL, BINARY_EQ, BINARY_NE, BINARY_LT,
        BINARY_LE, BINARY_GT, BINARY_GE, Nat.reduceEqDiff, reduceIte, or_true, true_or, or_false, false_or, if_true, if_false, decide_eq_true_eq] at hif
      exact eqStep_safe F _ false hif hstk hscal
    · -- BINARY_NE
      simp only [REPLACE, SET_IN_PLACE, LOAD_CONST, LOAD_LOCAL, MAKE_ARRAY, DEBUG_PRINT,
        JUMP_IF_FALSE, JUMP_IF_FALSE_NO_POP, JUMP, GET, UNARY_NEG, UNARY_NOT, BINARY_DIV,
        BINARY_MOD, BINARY_ADD, BINARY_SUB, BINARY_MUL, BINARY_EQ, BINARY_NE, BINARY_LT,
        BINARY_LE, BINARY_GT, BINARY_GE, Nat.reduceEqDiff, reduceIte, or_true, true_or, or_false, false_or, if_true, if_false, decide_eq_true_eq] at hif
      exact eqStep_safe F _ true hif hstk hscal
    · -- BINARY_LT
      simp only [REPLACE, SET_IN_PLACE, LOAD_CONST, LOAD_LOCAL, MAKE_ARRAY, DEBUG_PRINT,
        JUMP_IF_FALSE, JUMP_IF_FALSE_NO_POP, JUMP, GET, UNARY_NEG, UNARY_NOT, BINARY_DIV,
        BINARY_MOD, BINARY_ADD, BINARY_SUB, BINARY_MUL, BINARY_EQ, BINARY_NE, BINARY_LT,
        BINARY_LE, BINARY_GT, BINARY_GE, Nat.reduceEqDiff, reduceIte, or_true, true_or, or_false, false_or, if_true, if_false, decide_eq_true_eq] at hif
      rw [show operands 23 = 0 from by decide] at hline
      refine binStep_safe F _ binaryLt "<" hif hstk ?_ hscal ?_
      · show s.pc + 1 < s.lines.length
        omega
      · exact fun l r _ _ => binaryLt_no_crash F _ _ l r
    · -- BINARY_LE
      simp only [REPLACE, SET_IN_PLACE, LOAD_CONST, LOAD_LOCAL, MAKE_ARRAY, DEBUG_PRINT,
        JUMP_IF_FALSE, JUMP_IF_FALSE_NO_POP, JUMP, GET, UNARY_NEG, UNARY_NOT, BINARY_DIV,
        BINARY_MOD, BINARY_ADD, BINARY_SUB, BINARY_MUL, BINARY_EQ, BINARY_NE, BINARY_LT,
        BINARY_LE, BINARY_GT, BINARY_GE, Nat.reduceEqDiff, reduceIte, or_true, true_or, or_false, false_or, if_true, if_false, decide_eq_true_eq] at hif
      rw [show operands 24 = 0 from by decide] at hline
      refine binStep_safe F _ binaryLe "<=" hif hstk ?_ hscal ?_
      · show s.pc + 1 < s.lines.length
        omega
      · exact fun l r _ _ => binaryLe_no_crash F _ _ l r
    · -- BINARY_GT
      simp only [REPLACE, SET_IN_PLACE, LOAD_CONST, LOAD_LOCAL, MAKE_ARRAY, DEBUG_PRINT,
        JUMP_IF_FALSE, JUMP_IF_FALSE_NO_POP, JUMP, GET, UNARY_NEG, UNARY_NOT, BINARY_DIV,
        BINARY_MOD, BINARY_ADD, BINARY_SUB, BINARY_MUL, BINARY_EQ, BINARY_NE, BINARY_LT,
        BINARY_LE, BINARY_GT, BINARY_GE, Nat.reduceEqDiff, reduceIte, or_true, true_or, or_false, false_or, if_true, if_false, decide_eq_true_eq] at hif
      rw [show operands 25 = 0 from by decide] at hline
      refine binStep_safe F _ binaryGt ">" hif hstk ?_ hscal ?_
      · show s.pc + 1 < s.lines.length
        omega
      · exact fun l r _ _ => binaryGt_no_crash F _ _ l r
    · -- BINARY_GE
      simp only [REPLACE, SET_IN_PLACE, LOAD_CONST, LOAD_LOCAL, MAKE_ARRAY, DEBUG_PRINT,
        JUMP_IF_FALSE, JUMP_IF_FALSE_NO_POP, JUMP, GET, UNARY_NEG, UNARY_NOT, BINARY_DIV,
        BINARY_MOD, BINARY_ADD, BINARY_SUB, BINARY_MUL, BINARY_EQ, BINARY_NE, BINARY_LT,
        BINARY_LE, BINARY_GT, BINARY_GE, Nat.reduceEqDiff, reduceIte, or_true, true_or, or_false, false_or, if_true, if_false, decide_eq_true_eq] at hif
      rw [show operands 26 = 0 from by decide] at hline
      refine binStep_safe F _ binaryGe ">=" hif hstk ?_ hscal ?_
      · show s.pc + 1 < s.lines.length
        omega
      · exact fun l r _ _ => binaryGe_no_crash F _ _ l r
    · -- unknown bytecode (ECHO_PRINT, BINARY_EXP, out of range)
      next b hb0 hb1 hb2 hb3 hb4 hb5 hb6 hb7 hb8 hb9 hb10 hb11 hb12 hb13 hb14 hb15
        hb16 hb17 hb18 hb19 hb20 hb21 hb22 hb23 hb24 =>
        have hcon : ¬(bc = LOAD_CONST ∨ bc = LOAD_LOCAL ∨ bc = REPLACE ∨
            bc = JUMP_IF_FALSE ∨ bc = JUMP_IF_FALSE_NO_POP ∨ bc = JUMP) := by
          unfold LOAD_CONST LOAD_LOCAL REPLACE JUMP_IF_FALSE JUMP_IF_FALSE_NO_POP JUMP
          rintro (hx | hx | hx | hx | hx | hx)
          · exact hb4 hx
          · exact hb5 hx
          · exact hb2 hx
          · exact hb8 hx
          · exact hb9 hx
          · exact hb10 hx
        have hops : operands bc = 0 := by
          unfold operands
          rw [if_neg hcon]
        rw [hops] at hline
        refine runtimeError_safe _ _ ?_
        show s.pc + 1 < s.lines.length
        omega


theorem c1_guarded_dispatch_never_crashes_witness :
    execStep floatOps0 cexSafeAdd ≠ Step.crash :=
  c1_guarded_dispatch_never_crashes floatOps0 cexSafeAdd (by decide)

theorem c1_counterexample : execStep floatOps0 cexReplaceEmpty = Step.crash := by decide

/-- C2: when the dispatch of the opcode bc at pc returns early with a
fault, the error slot holds a runtime error and the loop stops with that
state; but pc does not stay at the faulting opcode: it rests one unit
past the opcode and its operands, and the span recorded is the
span-table entry at that advanced pc (the entry of the FOLLOWING unit),
not the faulting opcode\x27s own entry. -/
theorem c2_fault_halts_error_set_pc_past (F : FloatOps) (s s1 : VM) (bc : Nat)
    (hbc : s.bytecodes.get? s.pc = some bc)
    (hpc : s.pc < s.bytecodes.length)
    (hstep : execStep F s = Step.halt s1) (fuel : Nat) :
    (s1.error.isSome = true ∧ execLoop F (fuel + 1) s = ExecOutcome.finished s1) ∧
    s1.pc = s.pc + 1 + operands bc ∧
    ∃ e, s1.error = some e ∧ e.atRuntime = true ∧ s.lines.get? s1.pc = some e.span := by
  have h := execOp_ok F { s with pc := s.pc + 1 } bc
  rw [show execOp F { s with pc := s.pc + 1 } bc = execStep F s from by
        unfold execStep; rw [hbc]] at h
  rw [hstep] at h
  obtain ⟨-, -, he, hpc1, e, hee, hrt, hsp⟩ := h
  refine ⟨⟨he, ?_⟩, ?_, e, hee, hrt, hsp⟩
  · simp only [execLoop]
    rw [if_pos hpc, hstep]
  · dsimp only at hpc1
    exact hpc1

theorem c2_fault_halts_error_set_pc_past_witness :
    (cexAddBoolsHalt.error.isSome = true ∧
      execLoop floatOps0 1 cexAddBools = ExecOutcome.finished cexAddBoolsHalt) ∧
    cexAddBoolsHalt.pc = cexAddBools.pc + 1 + operands BINARY_ADD ∧
    ∃ e, cexAddBoolsHalt.error = some e ∧ e.atRuntime = true ∧
      cexAddBools.lines.get? cexAddBoolsHalt.pc = some e.span :=
  c2_fault_halts_error_set_pc_past floatOps0 cexAddBools cexAddBoolsHalt BINARY_ADD
    (by decide) (by decide) (by decide) 0

theorem c2_counterexample :
    (stepHaltState (execStep floatOps0 cexAddBools)).map
        (fun s1 => (s1.pc, s1.error.map VMErr.span)) = some (1, some spanB) ∧
    cexAddBools.bytecodes.get? 0 = some BINARY_ADD ∧
    cexAddBools.lines.get? 0 = some spanA ∧ spanA ≠ spanB := by decide

/-- C4: one dispatch leaves every constant-pool entry unchanged UNLESS
the opcode is SET_IN_PLACE and the pointer slot below the top of the
stack holds a pool handle (which the REPLACE padding produces); and
LOAD_CONST indeed pushes a fresh arena clone of constants[idx], aliasing
nothing. The unguarded claim is refuted by c4_counterexample, where a
REPLACE-padded slot is loaded and written through, flipping the pool
null to true with no error. -/
theorem c4_pool_preserved_and_load_const_clones (F : FloatOps) (s : VM) (bc : Nat)
    (hbc : s.bytecodes.get? s.pc = some bc) :
    (∀ s1, execStep F s = Step.next s1 ∨ execStep F s = Step.halt s1 →
      s1.constants = s.constants ∨
        (bc = SET_IN_PLACE ∧ ∃ t i v, s.stack = t ++ [Handle.constH i, v])) ∧
    (∀ idx c, bc = LOAD_CONST → s.bytecodes.get? (s.pc + 1) = some idx →
      s.constants.get? idx = some c → s.stack.length < STACK_SIZE →
      execStep F s =
        Step.next { s with
                      pc := s.pc + 2,
                      heap := s.heap ++ [c],
                      stack := s.stack ++ [Handle.heapH s.heap.length] }) := by
  constructor
  · intro s1 hstep
    have h := execOp_ok F { s with pc := s.pc + 1 } bc
    rw [show execOp F { s with pc := s.pc + 1 } bc = execStep F s from by
          unfold execStep; rw [hbc]] at h
    rcases hstep with hstep | hstep <;> rw [hstep] at h
    · exact h.2
    · exact h.2.1
  · intro idx c hbceq hidx hc hcap
    subst hbceq
    unfold execStep
    rw [hbc]
    show loadConstStep { s with pc := s.pc + 1 } = _
    unfold loadConstStep readOperand
    dsimp only
    rw [hidx]
    dsimp only
    rw [hc]
    dsimp only [allocV, pushChecked, pushS]
    rw [if_neg (by omega)]

theorem c4_pool_preserved_witness :
    execStep floatOps0 cexLoadConst = Step.next cexLoadConstNext :=
  (c4_pool_preserved_and_load_const_clones floatOps0 cexLoadConst LOAD_CONST
    (by decide)).2 2 Value.VNull rfl (by decide) (by decide) (by decide)

theorem c4_counterexample :
    cexPoolWrite.constants.get? NULL_CONSTANT = some Value.VNull ∧
    (outcomeState (execLoop floatOps0 10 cexPoolWrite)).map
        (fun s => (s.constants.get? NULL_CONSTANT, s.error.isSome)) =
      some (some (Value.VBool true), false) := by decide

/-- C5: along every terminating run of the interpretive loop the arena
only grows: no opcode boundary (or any other point) ever removes a cell,
because VM::execute never calls mark or sweep; the threshold
GC_FORCE_COLLECT = 2^19 of src/vm/memory.rs is declared but compared
nowhere, so exceeding it triggers nothing. -/
theorem c5_collector_never_runs :
    (∀ (F : FloatOps) (fuel : Nat) (s s1 : VM),
        outcomeState (execLoop F fuel s) = some s1 → s.heap.length ≤ s1.heap.length) ∧
    GC_FORCE_COLLECT = 2 ^ 19 := by
  constructor
  · intro F fuel
    induction fuel with
    | zero =>
        intro s s1 h
        cases h
    | succ n ih =>
        intro s s1 h
        simp only [execLoop] at h
        split at h
        · split at h
          · next s2 hstep =>
              have hmono : s.heap.length ≤ s2.heap.length := by
                rcases hbc : s.bytecodes.get? s.pc with - | bc
                · unfold execStep at hstep
                  rw [hbc] at hstep
                  cases hstep
                · have hok := execOp_ok F { s with pc := s.pc + 1 } bc
                  rw [show execOp F { s with pc := s.pc + 1 } bc = execStep F s from by
                        unfold execStep; rw [hbc]] at hok
                  rw [hstep] at hok
                  exact hok.1
              exact le_trans hmono (ih s2 s1 h)
          · next s2 hstep =>
              have hmono : s.heap.length ≤ s2.heap.length := by
                rcases hbc : s.bytecodes.get? s.pc with - | bc
                · unfold execStep at hstep
                  rw [hbc] at hstep
                  cases hstep
                · have hok := execOp_ok F { s with pc := s.pc + 1 } bc
                  rw [show execOp F { s with pc := s.pc + 1 } bc = execStep F s from by
                        unfold execStep; rw [hbc]] at hok
                  rw [hstep] at hok
                  exact hok.1
              simp only [outcomeState] at h
              obtain rfl := Option.some.inj h
              exact hmono
          · cases h
        · simp only [outcomeState] at h
          obtain rfl := Option.some.inj h
          exact le_refl _
  · rfl

/-- C9: the dispatch arm the source gives JUMP_IF_FALSE_NO_POP is the
same as the JUMP_IF_FALSE arm (it also pops unconditionally), and both
agree with the specification-side semantics jumpIfFalseSpec: read the
target, pop the top value unconditionally, and set pc to the target
exactly when that value is not truthy. A VM merging the two opcodes is
therefore step-for-step equal on these opcodes. -/
theorem c9_conditional_jumps_identical :
    (∀ (F : FloatOps) (s : VM), jumpIfFalseNoPopStep F s = jumpIfFalseStep F s) ∧
    (∀ (F : FloatOps) (s : VM) (bc : Nat), s.bytecodes.get? s.pc = some bc →
      bc = JUMP_IF_FALSE ∨ bc = JUMP_IF_FALSE_NO_POP →
      execStep F s = jumpIfFalseSpec F { s with pc := s.pc + 1 }) ∧
    execStep floatOps0 cexJif = jumpIfFalseSpec floatOps0 { cexJif with pc := 1 } := by
  refine ⟨fun F s => rfl, ?_, ?_⟩
  · intro F s bc hbc hor
    unfold execStep
    rw [hbc]
    rcases hor with rfl | rfl
    · rfl
    · rfl
  · decide


/-- C3: a break statement inside a loop emits JUMP with a zero
placeholder and records the placeholder offset in the innermost break
frame; a next statement does the same in the next frame; and the While
finish backfills every recorded break offset with the position AT WHICH
the trailing null load is then emitted (the null push executes after a
break), not past it, while every next offset is backfilled with
loop_start. The exact output bytecode list is the compileWhileFinish
equation below; c3_counterexample exhibits the compiled while true
\x7b break \x7d, whose break operand is 8, the index of the trailing
LOAD_CONST null, where jumping past the null push would need 10. -/
theorem c3_break_to_null_push_next_to_loop_start :
    (∀ (F : FloatOps) (fuel : Nat) (s : VM) (sp : AstSpan) (frame : List Nat)
        (t : List (List Nat)),
      s.breakJumpPatches = frame :: t →
      compileF F (fuel + 1) s (.stmt (.breakS sp)) =
        ({ s with
             bytecodes := s.bytecodes ++ [JUMP, 0],
             lines := s.lines ++ [sp, sp],
             breakJumpPatches := (frame ++ [s.bytecodes.length + 1]) :: t }, true)) ∧
    (∀ (F : FloatOps) (fuel : Nat) (s : VM) (sp : AstSpan) (frame : List Nat)
        (t : List (List Nat)),
      s.nextJumpPatches = frame :: t →
      compileF F (fuel + 1) s (.stmt (.nextS sp)) =
        ({ s with
             bytecodes := s.bytecodes ++ [JUMP, 0],
             lines := s.lines ++ [sp, sp],
             nextJumpPatches := (frame ++ [s.bytecodes.length + 1]) :: t }, true)) ∧
    (∀ (s5 : VM) (loopStart patchLoc : Nat) (sp : AstSpan) (bl nl : List Nat)
        (brest nrest : List (List Nat)),
      s5.breakJumpPatches = bl :: brest → s5.nextJumpPatches = nl :: nrest →
      compileWhileFinish s5 loopStart patchLoc sp =
        ({ s5 with
             bytecodes :=
               patchAll
                 (patchAll
                   ((s5.bytecodes ++ [JUMP, byteOf loopStart]).set patchLoc
                     (byteOf (s5.bytecodes.length + 2)))
                   bl (byteOf (s5.bytecodes.length + 2)))
                 nl (byteOf loopStart) ++ [LOAD_CONST, NULL_CONSTANT],
             lines := s5.lines ++ [sp, sp, sp, sp],
             breakJumpPatches := brest,
             nextJumpPatches := nrest }, true)) := by
  refine ⟨?_, ?_, ?_⟩
  · intro F fuel s sp frame t hbr
    simp only [compileF, pushBytecode]
    rw [hbr]
    dsimp only
    simp
  · intro F fuel s sp frame t hnx
    simp only [compileF, pushBytecode]
    rw [hnx]
    dsimp only
    simp
  · intro s5 loopStart patchLoc sp bl nl brest nrest hbr hnx
    unfold compileWhileFinish pushBytecode
    dsimp only
    rw [hbr]
    dsimp only
    rw [hnx]
    dsimp only
    simp [List.append_assoc]

theorem c3_counterexample :
    (compileVM floatOps0 32 defaultVM whileBreakProg).2 = true ∧
    (compileVM floatOps0 32 defaultVM whileBreakProg).1.bytecodes =
      [LOAD_CONST, BOOL_TRUE_CONSTANT, JUMP_IF_FALSE, 8, JUMP, 8, JUMP, 0,
       LOAD_CONST, NULL_CONSTANT, POP_LAST] ∧
    ((compileVM floatOps0 32 defaultVM whileBreakProg).1.bytecodes.get? 4 = some JUMP ∧
      (compileVM floatOps0 32 defaultVM whileBreakProg).1.bytecodes.get? 5 = some 8) ∧
    (compileVM floatOps0 32 defaultVM whileBreakProg).1.bytecodes.get? 8 = some LOAD_CONST ∧
    (8 : Nat) ≠ 10 := by decide

theorem c8_counterexample :
    binaryMod floatOps0 [] [] (Value.VInt 1) (Value.VInt (2 ^ 63 - 1)) =
      BinRes.ok [Value.VInt (-1)] (Handle.heapH 0) ∧
    0 < (2 ^ 63 - 1 : Int) ∧ ¬((0 : Int) ≤ -1) ∧
    flooredMod 1 (2 ^ 63 - 1) = 1 := by decide

/-- C10: the peephole pass of VM::optimize changes observable REPL
behavior. On the REPL program 1; true + true; both the unoptimized and
the optimized bytecode fault at the boolean addition, but the
unoptimized run leaves last_popped holding the 1 popped by the first
statement, while the optimized run (which rewrote that LOAD_CONST,
operand, POP_LAST triple into three NOOPs) leaves last_popped empty:
optimize is not observation-preserving over (last_popped, error). -/
theorem c10_optimize_changes_last_popped :
    (compileVM floatOps0 64 replVM peepholeProg).2 = true ∧
    (compileVM floatOps0 64 replVM peepholeProg).1.bytecodes =
      [LOAD_CONST, 3, POP_LAST, LOAD_CONST, BOOL_TRUE_CONSTANT,
       LOAD_CONST, BOOL_TRUE_CONSTANT, BINARY_ADD, POP_LAST] ∧
    (optimizeVM (compileVM floatOps0 64 replVM peepholeProg).1).bytecodes =
      [NOOP, NOOP, NOOP, LOAD_CONST, BOOL_TRUE_CONSTANT,
       LOAD_CONST, BOOL_TRUE_CONSTANT, BINARY_ADD, POP_LAST] ∧
    (outcomeState (execute floatOps0 20 (compileVM floatOps0 64 replVM peepholeProg).1)).map
        (fun r => (r.lastPopped.bind (derefVM r), r.error.isSome)) =
      some (some (Value.VInt 1), true) ∧
    (outcomeState
        (execute floatOps0 20 (optimizeVM (compileVM floatOps0 64 replVM peepholeProg).1))).map
        (fun r => (r.lastPopped, r.error.isSome)) =
      some (none, true) := by decide

end Glacier
